import Mathlib

/-!
Shallow embedding of the Battleship-for-Linera contract
(`src/battleship/src/lib.rs`, `src/battleship/src/contract.rs`) and proofs of
the specified properties of its board engine, room state machine and
cross-chain message protocol.

Modelling conventions:
* Rust `u8`/`u64` values are modelled as `Nat`; `saturating_add` on `u8` is
  `min (a + b) 255`, `saturating_sub` on `Nat` is ordinary `Nat` subtraction
  (which is already truncated), and all concrete inputs considered stay inside
  the machine ranges.
* `ChainId` is modelled as `String`; parsing a chain-id string that was itself
  produced by `ChainId::to_string` always succeeds, so `parse` is the identity.
* The board's `Vec<Cell>` of length `size * size` is modelled as a total
  function from the flat index `idx size row col` to `Cell`; the enemy view's
  `Vec<EnemyCell>` is kept as a `List` because the code inspects its length.
* Timestamps are kept as the underlying microsecond counts (the code stores
  them as decimal strings and parses them back with default `0`).
* A Rust `panic!`/`expect` aborts the whole operation or message; handlers are
  therefore modelled in `Except String`, with `.error` for a fatal abort.
-/

namespace Battleship

/-- Rust `RoomStatus` from lib.rs. -/
inductive RoomStatus where
  | Active
  | Ended
deriving DecidableEq, Repr

/-- Rust `GameState` from lib.rs. -/
inductive GameState where
  | WaitingForPlayer
  | PlacingBoards
  | InGame
  | Ended
deriving DecidableEq, Repr

/-- Rust `Axis` from lib.rs. -/
inductive Axis where
  | Horiz
  | Vert
deriving DecidableEq, Repr

/-- Rust `Coord` from lib.rs (`row`, `col` are `u8`). -/
structure Coord where
  row : Nat
  col : Nat
deriving DecidableEq, Repr

/-- Rust `PlayerInfo` from lib.rs. -/
structure PlayerInfo where
  chain_id : String
  name : String
  board_submitted : Bool
deriving DecidableEq, Repr

/-- Rust `Room` from lib.rs; `room_id` is the microsecond timestamp it was minted
from. -/
structure Room where
  room_id : Nat
  host_chain_id : String
  status : RoomStatus
  game_state : GameState
  players : List PlayerInfo
  current_attacker : Option String
  pending_attack : Option Coord
  winner_chain_id : Option String
deriving DecidableEq, Repr

/-- Rust `RevealInfo` from lib.rs. -/
structure RevealInfo where
  attacker_chain_id : String
  defender_chain_id : String
  row : Nat
  col : Nat
  valid : Bool
  error : Option String
  hit : Bool
  sunk : Bool
  sunk_ship_cells : Option (List Coord)
  adjacent_coords : Option (List Coord)
  next_attacker : String
  game_over : Bool
  winner_chain_id : Option String
  timestamp : Nat
deriving DecidableEq, Repr

/-- Rust `Invitation` from lib.rs (timestamp kept as the parsed microsecond
value). -/
structure Invitation where
  host_chain_id : String
  timestamp : Nat
deriving DecidableEq, Repr

/-- Rust `EnemyCell` from lib.rs. -/
inductive EnemyCell where
  | Unknown
  | Miss
  | Hit
  | Sunk
deriving DecidableEq, Repr

/-- Rust `EnemyBoardView` from lib.rs: a `size * size` grid of redacted cells. -/
structure EnemyBoardView where
  size : Nat
  cells : List EnemyCell
deriving DecidableEq, Repr

/-- Rust `Cell` from lib.rs. -/
structure Cell where
  ship_id : Option Nat
  attacked : Bool
deriving DecidableEq, Repr

/-- Rust `Ship` from lib.rs. -/
structure Ship where
  id : Nat
  cells : List Coord
deriving DecidableEq, Repr

/-- Rust `Board` from lib.rs; the `Vec<Cell>` of length `size * size` is modelled
as a total function from flat indices. -/
structure Board where
  size : Nat
  cells : Nat → Cell
  ships : List Ship

/-- Rust `ShipPlacementInput` from lib.rs. -/
structure ShipPlacementInput where
  row : Nat
  col : Nat
  length : Nat
  axis : Axis
deriving DecidableEq, Repr

/-- Rust `MatchmakingPlayer` from lib.rs. -/
structure MatchmakingPlayer where
  chain_id : String
  player_name : String
deriving DecidableEq, Repr

/-- Rust `CrossChainMessage` from lib.rs (chain ids as strings). -/
inductive CrossChainMessage where
  | JoinRequest (player_chain_id : String) (player_name : String)
  | InitialStateSync (room : Room)
  | RoomSync (room : Room)
  | BoardSubmittedNotice (player_chain_id : String)
  | AttackRequest (attacker_chain_id : String) (row col : Nat)
  | RevealResult (defender_chain_id : String) (row col : Nat) (valid : Bool)
      (error : Option String) (hit sunk : Bool)
      (sunk_ship_cells : Option (List Coord))
      (adjacent_coords : Option (List Coord))
      (next_attacker : String) (game_over : Bool)
      (winner_chain_id : Option String)
  | LeaveNotice (player_chain_id : String)
  | FriendRequest (requester_chain_id : String)
  | FriendAccepted (target_chain_id : String)
  | RoomInvitation (host_chain_id : String) (timestamp : Nat)
  | RoomInvitationCancelled (host_chain_id : String)
  | MatchmakingEnqueue (player_chain_id : String) (player_name : String)
  | MatchmakingEnqueued (orchestrator_chain_id : String)
  | MatchmakingStart (host_name : String) (guest_chain_id : String)
      (guest_name : String)
  | MatchmakingFound (host_chain_id : String)
deriving DecidableEq, Repr

/-- Saturating `u8` addition (`u8::saturating_add`). -/
def u8satAdd (a b : Nat) : Nat := min (a + b) 255

/-- Function `empty_enemy_view` from lib.rs. -/
def empty_enemy_view (size : Nat) : EnemyBoardView :=
  { size := size, cells := List.replicate (size * size) EnemyCell.Unknown }

/-- Function `idx` from lib.rs: flat index of `(row, col)` on a `size`-wide grid. -/
def idx (size row col : Nat) : Nat := row * size + col

/-- The cell a placement occupies at offset `i` (the loop body of
`validate_and_build_board`, with the `u8::saturating_add`). -/
def shipCoord (p : ShipPlacementInput) (i : Nat) : Coord :=
  match p.axis with
  | Axis.Horiz => { row := p.row, col := u8satAdd p.col i }
  | Axis.Vert => { row := u8satAdd p.row i, col := p.col }

/-- The cell-collection loop of `validate_and_build_board`: occupied cells of
one placement, failing at the first out-of-bounds cell. -/
def collectShipCells (size : Nat) (p : ShipPlacementInput) :
    Except String (List Coord) :=
  (List.range p.length).foldlM
    (fun acc i =>
      let c := shipCoord p i
      if size - 1 < c.row ∨ size - 1 < c.col then
        Except.error "Ship out of bounds"
      else
        Except.ok (acc ++ [c]))
    []

/-- The in-bounds 8-neighborhood scan order of `validate_and_build_board` and
`apply_sunk_padding`: offsets `(dr, dc)` with `dr, dc ∈ {-1, 0, 1}`, the given
pair excluded when `excludeCenter` is true, restricted to the grid. -/
def neighborCells (size : Nat) (c : Coord) (excludeCenter : Bool) : List Coord :=
  ([(-1 : Int), 0, 1].flatMap fun dr =>
    ([(-1 : Int), 0, 1].filterMap fun dc =>
      if excludeCenter ∧ dr = 0 ∧ dc = 0 then none
      else
        let nr : Int := (c.row : Int) + dr
        let nc : Int := (c.col : Int) + dc
        if nr < 0 ∨ nc < 0 then none
        else if (size - 1 : Nat) < nr.toNat ∨ (size - 1 : Nat) < nc.toNat then none
        else some { row := nr.toNat, col := nc.toNat }))

/-- The overlap/adjacency check of `validate_and_build_board` for one cell of
a candidate ship against the cells written so far. -/
def checkShipCell (size : Nat) (cells : Nat → Cell) (c : Coord) :
    Except String Unit :=
  if (cells (idx size c.row c.col)).ship_id.isSome then
    Except.error "Ships overlap"
  else if (neighborCells size c true).any
      (fun n => (cells (idx size n.row n.col)).ship_id.isSome) then
    Except.error "Ships must not touch (including diagonals)"
  else
    Except.ok ()

/-- Write one ship's cells into the grid (the final write loop of
`validate_and_build_board`). -/
def writeShipCells (size : Nat) (cells : Nat → Cell) (cs : List Coord)
    (sid : Nat) : Nat → Cell :=
  cs.foldl
    (fun acc c => fun i =>
      if i = idx size c.row c.col then { acc i with ship_id := some sid }
      else acc i)
    cells

/-- The placement loop of `validate_and_build_board`, processing the remaining
placements against the grid and ships accumulated so far. -/
def buildLoop (size : Nat) : List ShipPlacementInput → (Nat → Cell) →
    List Ship → Nat → Except String Board
  | [], cells, ships, _ => Except.ok { size := size, cells := cells, ships := ships }
  | p :: rest, cells, ships, next_ship_id =>
    if p.length = 0 then Except.error "Ship length must be > 0"
    else if size - 1 < p.row ∨ size - 1 < p.col then
      Except.error "Ship start out of bounds"
    else
      match collectShipCells size p with
      | Except.error e => Except.error e
      | Except.ok ship_cells =>
        match ship_cells.foldlM (fun _ c => checkShipCell size cells c) () with
        | Except.error e => Except.error e
        | Except.ok _ =>
          buildLoop size rest (writeShipCells size cells ship_cells next_ship_id)
            (ships ++ [{ id := next_ship_id, cells := ship_cells }])
            (u8satAdd next_ship_id 1)

/-- Function `validate_and_build_board` from lib.rs. -/
def validate_and_build_board (size : Nat)
    (placements : List ShipPlacementInput) : Except String Board :=
  if size = 0 then Except.error "Invalid board size"
  else
    buildLoop size placements
      (fun _ => { ship_id := none, attacked := false }) [] 0

/-- The grid of `apply_attack` after `board.cells[index].attacked = true`. -/
def attackedCells (board : Board) (index : Nat) : Nat → Cell :=
  fun i =>
    if i = index then { board.cells i with attacked := true }
    else board.cells i

/-- The `sunk` computation of `apply_attack`: the hit ship (if any) looked up
by id, all of its cells tested against the updated grid. -/
def attackSunk (board : Board) (index : Nat) : Bool :=
  match (board.cells index).ship_id with
  | none => false
  | some sid =>
    match board.ships.find? (fun s => s.id == sid) with
    | none => false
    | some ship =>
      ship.cells.all
        (fun c => (attackedCells board index (idx board.size c.row c.col)).attacked)

/-- The `game_over` computation of `apply_attack`: every cell of every ship
tested against the updated grid. -/
def attackGameOver (board : Board) (index : Nat) : Bool :=
  board.ships.all (fun ship =>
    ship.cells.all
      (fun c => (attackedCells board index (idx board.size c.row c.col)).attacked))

/-- Function `apply_attack` from lib.rs. The `&mut Board` is returned explicitly; the
error paths return it untouched, exactly as the Rust returns before any
mutation. -/
def apply_attack (board : Board) (row col : Nat) :
    Except String (Bool × Bool × Option Nat × Bool) × Board :=
  if board.size - 1 < row ∨ board.size - 1 < col then
    (Except.error "Attack out of bounds", board)
  else if (board.cells (idx board.size row col)).attacked then
    (Except.error "Cell already attacked", board)
  else
    (Except.ok
      ((board.cells (idx board.size row col)).ship_id.isSome,
       attackSunk board (idx board.size row col),
       (board.cells (idx board.size row col)).ship_id,
       attackGameOver board (idx board.size row col)),
     { board with cells := attackedCells board (idx board.size row col) })

/-- Function `apply_sunk_padding` from lib.rs: mark every in-bounds neighbor (including
the ship's own cells' positions, center included in the Rust loop) that holds
no ship and is not yet attacked, returning the ship cells and the newly
revealed splash cells. -/
def apply_sunk_padding (board : Board) (ship_id : Nat) :
    Except String (List Coord × List Coord) × Board :=
  match board.ships.find? (fun s => s.id == ship_id) with
  | none => (Except.error "Ship not found", board)
  | some ship =>
    let step :
        ((Nat → Cell) × List Coord) → Coord → ((Nat → Cell) × List Coord) :=
      fun acc n =>
        let cell := acc.1 (idx board.size n.row n.col)
        if cell.ship_id.isSome then acc
        else if cell.attacked then acc
        else
          (fun i =>
            if i = idx board.size n.row n.col then { acc.1 i with attacked := true }
            else acc.1 i,
           acc.2 ++ [n])
    let result :=
      ship.cells.foldl
        (fun acc c => (neighborCells board.size c false).foldl step acc)
        (board.cells, [])
    (Except.ok (ship.cells, result.2), { board with cells := result.1 })

/-- Function `set_enemy_view_cell` from lib.rs. -/
def set_enemy_view_cell (view : EnemyBoardView) (row col : Nat)
    (value : EnemyCell) : Except String EnemyBoardView :=
  if view.size - 1 < row ∨ view.size - 1 < col then
    Except.error "Coord out of bounds"
  else
    Except.ok { view with cells := view.cells.set (idx view.size row col) value }

/-- Call pattern `set_enemy_view_cell(...).ok()` in contract.rs: the error is discarded and
the view left unchanged (the Rust function returns before mutating). -/
def setCellOk (view : EnemyBoardView) (row col : Nat) (value : EnemyCell) :
    EnemyBoardView :=
  match set_enemy_view_cell view row col value with
  | Except.ok v => v
  | Except.error _ => view

/-- The cell shown at `(row, col)` of an enemy view. -/
def viewGet (v : EnemyBoardView) (row col : Nat) : EnemyCell :=
  v.cells.getD (idx v.size row col) EnemyCell.Unknown

/-- A view whose storage matches its declared square size. -/
def ViewWF (v : EnemyBoardView) : Prop := v.cells.length = v.size * v.size

/-- Rust `BattleshipState` from state.rs: one register per field. -/
structure ContractState where
  room : Option Room
  board : Option Board
  enemy_view : Option EnemyBoardView
  subscribed_to_host : Option String
  last_reveal : Option RevealInfo
  last_notification : Option String
  friends : List String
  friend_requests_received : List String
  friend_requests_sent : List String
  room_invitations : List Invitation
  sent_invitations : List String
  matchmaking_queue : List MatchmakingPlayer

/-- Helper `find_enemy_chain_id` from contract.rs: the first player whose chain id is
not ours (parsing a stored chain-id string back always succeeds). -/
def find_enemy_chain_id (selfChain : String) (room : Room) : Option String :=
  (room.players.find? (fun p => p.chain_id != selfChain)).map (fun p => p.chain_id)

/-- Helper `ensure_enemy_view_created` from contract.rs. -/
def ensure_enemy_view_created (st : ContractState) (enemy : String) :
    ContractState :=
  if st.enemy_view.isSome then st
  else
    match st.room with
    | some room =>
      if room.players.any (fun p => p.chain_id == enemy) then
        { st with enemy_view := some (empty_enemy_view 10) }
      else st
    | none => st

/-- The `Operation::Attack` handler from contract.rs (`execute_operation`); a
`panic!`/`expect` is a fatal `.error`.  `time` is unused by this arm. -/
def executeAttack (selfChain : String) (st : ContractState) (row col : Nat) :
    Except String (ContractState × List (String × CrossChainMessage)) :=
  match st.room with
  | none => Except.error "Room not found"
  | some room =>
    if room.game_state ≠ GameState.InGame then Except.error "Game not started"
    else if room.current_attacker ≠ some selfChain then
      Except.error "Not your turn"
    else if room.pending_attack.isSome then
      Except.error "Pending attack not resolved"
    else
      let revealed : Bool :=
        match st.enemy_view with
        | some view =>
          let i := row * view.size + col
          decide (i < view.cells.length) &&
            (view.cells.getD i EnemyCell.Unknown != EnemyCell.Unknown)
        | none => false
      if revealed then Except.error "Cell already revealed"
      else
        match find_enemy_chain_id selfChain room with
        | none => Except.error "Enemy not found"
        | some enemy =>
          let room1 := { room with pending_attack := some { row := row, col := col } }
          Except.ok
            ({ st with room := some room1, last_reveal := none },
             [(enemy, CrossChainMessage.AttackRequest selfChain row col)])

/-- The `Operation::AcceptInvite` handler from contract.rs: the matching
invitation (if any) is removed, then the freshness window is checked and a
`JoinRequest` is sent only when the check passes.  Malformed stored timestamps
parse to `0` in the Rust; the model stores the parsed value directly. -/
def executeAcceptInvite (selfChain : String) (time : Nat) (st : ContractState)
    (host_chain_id player_name : String) :
    ContractState × List (String × CrossChainMessage) :=
  match st.room_invitations.findIdx? (fun inv => inv.host_chain_id == host_chain_id) with
  | none => (st, [])
  | some pos =>
    let invite := st.room_invitations.getD pos { host_chain_id := "", timestamp := 0 }
    let st1 := { st with room_invitations := st.room_invitations.eraseIdx pos }
    if invite.timestamp < time ∧ time - invite.timestamp ≤ 300000000 then
      (st1, [(host_chain_id, CrossChainMessage.JoinRequest selfChain player_name)])
    else
      (st1, [])

/-- The `CrossChainMessage::AttackRequest` handler from contract.rs
(`execute_message`), defender side. -/
def handleAttackRequest (selfChain : String) (time : Nat) (st : ContractState)
    (attacker_chain_id : String) (row col : Nat) :
    Except String (ContractState × List (String × CrossChainMessage)) :=
  match st.room with
  | none => Except.error "Room not found"
  | some room =>
    if room.game_state ≠ GameState.InGame then Except.ok (st, [])
    else if room.current_attacker ≠ some attacker_chain_id then Except.ok (st, [])
    else
      match st.board with
      | none => Except.error "Board not submitted"
      | some board =>
        match apply_attack board row col with
        | (Except.error err, _) =>
          let reveal : RevealInfo :=
            { attacker_chain_id := attacker_chain_id,
              defender_chain_id := selfChain, row := row, col := col,
              valid := false, error := some err, hit := false, sunk := false,
              sunk_ship_cells := none, adjacent_coords := none,
              next_attacker := attacker_chain_id, game_over := false,
              winner_chain_id := none, timestamp := time }
          Except.ok
            ({ st with last_reveal := some reveal },
             [(attacker_chain_id,
               CrossChainMessage.RevealResult selfChain row col false (some err)
                 false false none none attacker_chain_id false none)])
        | (Except.ok (hit, sunk, ship_id, game_over), board1) =>
          let padded : Option (List Coord) × Option (List Coord) × Board :=
            if sunk then
              match ship_id with
              | some sid =>
                match apply_sunk_padding board1 sid with
                | (Except.ok (ship_cells, adjacent), board2) =>
                  (some ship_cells, some adjacent, board2)
                | (Except.error _, board2) => (none, none, board2)
              | none => (none, none, board1)
            else (none, none, board1)
          let sunk_ship_cells := padded.1
          let adjacent_coords := padded.2.1
          let boardFinal := padded.2.2
          let next_attacker := if hit then attacker_chain_id else selfChain
          let room1 :=
            { room with current_attacker := some next_attacker,
                        pending_attack := none }
          let room2 :=
            if game_over then
              { room1 with game_state := GameState.Ended,
                           status := RoomStatus.Ended,
                           winner_chain_id := some attacker_chain_id }
            else room1
          let reveal : RevealInfo :=
            { attacker_chain_id := attacker_chain_id,
              defender_chain_id := selfChain, row := row, col := col,
              valid := true, error := none, hit := hit, sunk := sunk,
              sunk_ship_cells := sunk_ship_cells,
              adjacent_coords := adjacent_coords,
              next_attacker := next_attacker, game_over := game_over,
              winner_chain_id :=
                if game_over then some attacker_chain_id else none,
              timestamp := time }
          Except.ok
            ({ st with board := some boardFinal, room := some room2,
                       last_reveal := some reveal },
             [(attacker_chain_id,
               CrossChainMessage.RevealResult selfChain row col true none hit
                 sunk sunk_ship_cells adjacent_coords next_attacker game_over
                 (if game_over then some attacker_chain_id else none))])

/-- One `Sunk` write of the `RevealResult` handler's sunk-ship loop. -/
def sunkStep (v : EnemyBoardView) (c : Coord) : EnemyBoardView :=
  setCellOk v c.row c.col EnemyCell.Sunk

/-- One splash write of the `RevealResult` handler's adjacency loop: a cell
becomes `Miss` only when it currently reads `Unknown`. -/
def adjacentMissStep (v : EnemyBoardView) (c : Coord) : EnemyBoardView :=
  let i := c.row * v.size + c.col
  if decide (i < v.cells.length) &&
      (v.cells.getD i EnemyCell.Unknown == EnemyCell.Unknown) then
    setCellOk v c.row c.col EnemyCell.Miss
  else v

/-- The enemy-view update of the `RevealResult` handler for a valid result:
on `sunk`, the hit cell and all carried ship cells become `Sunk` and the
carried splash cells become `Miss` where still `Unknown`; otherwise the hit
cell becomes `Hit` on a hit and `Miss` on a miss. -/
def revealViewUpdate (view0 : EnemyBoardView) (row col : Nat)
    (hit sunk : Bool) (sunk_ship_cells adjacent_coords : Option (List Coord)) :
    EnemyBoardView :=
  if sunk then
    (adjacent_coords.getD []).foldl adjacentMissStep
      ((sunk_ship_cells.getD []).foldl sunkStep
        (setCellOk view0 row col EnemyCell.Sunk))
  else if hit then setCellOk view0 row col EnemyCell.Hit
  else setCellOk view0 row col EnemyCell.Miss

/-- The `CrossChainMessage::RevealResult` handler from contract.rs, attacker
side. -/
def handleRevealResult (selfChain : String) (time : Nat) (st : ContractState)
    (defender_chain_id : String) (row col : Nat) (valid : Bool)
    (error : Option String) (hit sunk : Bool)
    (sunk_ship_cells adjacent_coords : Option (List Coord))
    (next_attacker : String) (game_over : Bool)
    (winner_chain_id : Option String) :
    Except String (ContractState × List (String × CrossChainMessage)) :=
  match st.room with
  | none => Except.error "Room not found"
  | some room =>
    if room.game_state ≠ GameState.InGame ∧ room.game_state ≠ GameState.Ended then
      Except.ok (st, [])
    else
      match room.pending_attack with
      | none => Except.ok (st, [])
      | some pending =>
        if pending.row ≠ row ∨ pending.col ≠ col then Except.ok (st, [])
        else
          let reveal : RevealInfo :=
            { attacker_chain_id := selfChain,
              defender_chain_id := defender_chain_id, row := row, col := col,
              valid := valid, error := error, hit := hit, sunk := sunk,
              sunk_ship_cells := sunk_ship_cells,
              adjacent_coords := adjacent_coords,
              next_attacker := next_attacker, game_over := game_over,
              winner_chain_id := winner_chain_id, timestamp := time }
          let st1 := { st with last_reveal := some reveal }
          let st2 :=
            if valid then
              let view0 := st.enemy_view.getD (empty_enemy_view 10)
              let view' := revealViewUpdate view0 row col hit sunk
                sunk_ship_cells adjacent_coords
              { st1 with enemy_view := some view' }
            else st1
          let room1 :=
            { room with current_attacker := some next_attacker,
                        pending_attack := none }
          let room2 :=
            if game_over then
              { room1 with game_state := GameState.Ended,
                           status := RoomStatus.Ended,
                           winner_chain_id := winner_chain_id }
            else room1
          Except.ok ({ st2 with room := some room2 }, [])

/-- The enqueue step of the `MatchmakingEnqueue` handler: push the player
unless an entry with the same chain id is already queued. -/
def enqueueQueue (queue0 : List MatchmakingPlayer)
    (player_chain_id player_name : String) : List MatchmakingPlayer :=
  if queue0.any (fun p => p.chain_id == player_chain_id) then queue0
  else queue0 ++ [{ chain_id := player_chain_id, player_name := player_name }]

/-- The `CrossChainMessage::MatchmakingEnqueue` handler from contract.rs,
orchestrator side. -/
def handleMatchmakingEnqueue (selfChain : String) (st : ContractState)
    (player_chain_id player_name : String) :
    ContractState × List (String × CrossChainMessage) :=
  let queue := enqueueQueue st.matchmaking_queue player_chain_id player_name
  let st1 := { st with matchmaking_queue := queue }
  let ack := (player_chain_id, CrossChainMessage.MatchmakingEnqueued selfChain)
  if queue.length < 2 then (st1, [ack])
  else
    match queue with
    | host :: guest :: rest =>
      ({ st1 with matchmaking_queue := rest },
       [ack,
        (host.chain_id,
         CrossChainMessage.MatchmakingStart host.player_name guest.chain_id
           guest.player_name),
        (guest.chain_id, CrossChainMessage.MatchmakingFound host.chain_id)])
    | _ => (st1, [ack])

/-- The room freshly minted by the `MatchmakingStart` handler. -/
def matchmakingRoom (selfChain : String) (time : Nat)
    (host_name guest_chain_id guest_name : String) : Room :=
  { room_id := time, host_chain_id := selfChain,
    status := RoomStatus.Active, game_state := GameState.PlacingBoards,
    players :=
      [{ chain_id := selfChain, name := host_name, board_submitted := false },
       { chain_id := guest_chain_id, name := guest_name,
         board_submitted := false }],
    current_attacker := none, pending_attack := none,
    winner_chain_id := none }

/-- The unguarded tail of the `MatchmakingStart` handler: install the fresh
room, clear board/enemy view/last reveal, recreate the enemy view, and sync
the guest. -/
def matchmakingStartFresh (selfChain : String) (time : Nat)
    (st : ContractState) (host_name guest_chain_id guest_name : String) :
    ContractState × List (String × CrossChainMessage) :=
  let room := matchmakingRoom selfChain time host_name guest_chain_id guest_name
  let st1 :=
    { st with board := none, enemy_view := none, room := some room,
              last_reveal := none,
              last_notification := some "Match found (host)" }
  let st2 := ensure_enemy_view_created st1 guest_chain_id
  (st2, [(guest_chain_id, CrossChainMessage.InitialStateSync room)])

/-- The `CrossChainMessage::MatchmakingStart` handler from contract.rs, host
side.  `time` is the system time used to mint the room id.  The guard
mirrors the early `return` when an `Active` room already exists. -/
def handleMatchmakingStart (selfChain : String) (time : Nat)
    (st : ContractState) (host_name guest_chain_id guest_name : String) :
    ContractState × List (String × CrossChainMessage) :=
  match st.room with
  | some room =>
    if room.status = RoomStatus.Active then (st, [])
    else matchmakingStartFresh selfChain time st host_name guest_chain_id guest_name
  | none => matchmakingStartFresh selfChain time st host_name guest_chain_id guest_name

/-- Demo board for witnesses: 3x3 with one horizontal length-2 ship at
(0,0)-(0,1). -/
def demoBoard : Board :=
  match validate_and_build_board 3 [⟨0, 0, 2, Axis.Horiz⟩] with
  | Except.ok b => b
  | Except.error _ => { size := 1, cells := fun _ => ⟨none, false⟩, ships := [] }

/-- The state right after `instantiate` in contract.rs: every register
empty. -/
def instantiateState : ContractState :=
  { room := none, board := none, enemy_view := none,
    subscribed_to_host := none, last_reveal := none, last_notification := none,
    friends := [], friend_requests_received := [], friend_requests_sent := [],
    room_invitations := [], sent_invitations := [], matchmaking_queue := [] }

/-- Demo room in game between host "B" and guest "A", with "A" to move. -/
def demoRoomInGame : Room :=
  { room_id := 0, host_chain_id := "B", status := RoomStatus.Active,
    game_state := GameState.InGame,
    players := [{ chain_id := "B", name := "bob", board_submitted := true },
                { chain_id := "A", name := "alice", board_submitted := true }],
    current_attacker := some "A", pending_attack := none,
    winner_chain_id := none }

/-- Demo defender-side state: room `demoRoomInGame`, board `demoBoard`. -/
def demoDefenderState : ContractState :=
  { instantiateState with room := some demoRoomInGame, board := some demoBoard }

/-- An active in-game room used to exhibit the MatchmakingStart guard. -/
def activeDemoRoom : Room :=
  { room_id := 1, host_chain_id := "H", status := RoomStatus.Active,
    game_state := GameState.InGame,
    players := [{ chain_id := "H", name := "h", board_submitted := true },
                { chain_id := "X", name := "x", board_submitted := true }],
    current_attacker := some "H", pending_attack := none,
    winner_chain_id := none }

/-- State of a peer that already sits in an active room. -/
def activeRoomState : ContractState :=
  { instantiateState with room := some activeDemoRoom }

/-- The demo room after the game ended with "A" as winner. -/
def endedDemoRoom : Room :=
  { demoRoomInGame with game_state := GameState.Ended,
                        status := RoomStatus.Ended,
                        winner_chain_id := some "A" }

/-- State of a peer whose game already ended. -/
def endedRoomState : ContractState :=
  { instantiateState with room := some endedDemoRoom }

/-- State holding one stored invitation from host "H" at timestamp 1000. -/
def invitedState : ContractState :=
  { instantiateState with
      room_invitations := [{ host_chain_id := "H", timestamp := 1000 }] }

/-- Orchestrator state with player "A" already waiting in the queue. -/
def queuedState : ContractState :=
  { instantiateState with
      matchmaking_queue := [{ chain_id := "A", player_name := "a" }] }

/-- Demo attacker-side room: "A" attacking with a pending shot at (0,0). -/
def demoAttackerRoom : Room :=
  { room_id := 0, host_chain_id := "B", status := RoomStatus.Active,
    game_state := GameState.InGame,
    players := [{ chain_id := "B", name := "bob", board_submitted := true },
                { chain_id := "A", name := "alice", board_submitted := true }],
    current_attacker := some "A",
    pending_attack := some { row := 0, col := 0 },
    winner_chain_id := none }

/-- Demo attacker-side state with a fresh 10x10 enemy view. -/
def demoAttackerState : ContractState :=
  { instantiateState with room := some demoAttackerRoom,
                          enemy_view := some (empty_enemy_view 10) }

/-- Two coordinates within Chebyshev distance 1 of each other (equality
included). -/
def chebTouch (a b : Coord) : Prop :=
  Nat.dist a.row b.row ≤ 1 ∧ Nat.dist a.col b.col ≤ 1

/-- The cells a placement occupies, as computed by the placement loop. -/
def shipCoords (p : ShipPlacementInput) : List Coord :=
  (List.range p.length).map (shipCoord p)

/-- Default ship used with `List.getD`. -/
def shipD : Ship := { id := 0, cells := [] }

/-- Default placement used with `List.getD`. -/
def placementD : ShipPlacementInput :=
  { row := 0, col := 0, length := 0, axis := Axis.Horiz }

/-- Invariant of the placement loop of `validate_and_build_board`: all ship
cells are in bounds, the grid marks exactly the union of the ships' cells, no
two distinct ships touch (Chebyshev distance at least 2), and the k-th ship
carries the saturating counter value `min k 255`. -/
def BoardInv (size : Nat) (cells : Nat → Cell) (ships : List Ship) : Prop :=
  (∀ s ∈ ships, ∀ c ∈ s.cells, c.row < size ∧ c.col < size) ∧
  (∀ c : Coord, c.row < size → c.col < size →
    ((cells (idx size c.row c.col)).ship_id.isSome = true ↔
      ∃ s ∈ ships, c ∈ s.cells)) ∧
  (∀ i j, i < ships.length → j < ships.length → i ≠ j →
    ∀ c1 ∈ (ships.getD i shipD).cells, ∀ c2 ∈ (ships.getD j shipD).cells,
      ¬chebTouch c1 c2) ∧
  (∀ k, k < ships.length → (ships.getD k shipD).id = min k 255)

/-- Saturation input: 257 single-cell placements on a 33-wide board, two cells apart in each
axis, exercising the `u8` saturation of the ship-id counter. -/
def saturationPlacements : List ShipPlacementInput :=
  (List.range 257).map
    (fun k => { row := 2 * (k / 17), col := 2 * (k % 17), length := 1,
                axis := Axis.Horiz })

end Battleship

namespace Battleship

/-- The `sunk` flag computed by `apply_attack` holds exactly when the hit
cell's ship exists in the ship list and every one of its cells is attacked on
the updated grid. -/
theorem attackSunk_iff (b : Board) (index : Nat) :
    attackSunk b index = true ↔
      ∃ sid0 ship, (b.cells index).ship_id = some sid0 ∧
        b.ships.find? (fun s => s.id == sid0) = some ship ∧
        ∀ c ∈ ship.cells,
          (attackedCells b index (idx b.size c.row c.col)).attacked = true := by
  unfold attackSunk
  cases hsid : (b.cells index).ship_id with
  | none => simp
  | some sid0 =>
    cases hfind : b.ships.find? (fun s => s.id == sid0) with
    | none => simp [hfind]
    | some ship => simp [hfind, List.all_eq_true]

/-- The `game_over` flag computed by `apply_attack` holds exactly when every
cell of every ship is attacked on the updated grid. -/
theorem attackGameOver_iff (b : Board) (index : Nat) :
    attackGameOver b index = true ↔
      ∀ ship ∈ b.ships, ∀ c ∈ ship.cells,
        (attackedCells b index (idx b.size c.row c.col)).attacked = true := by
  unfold attackGameOver
  simp [List.all_eq_true]

/-- C1: `apply_attack` rejects out-of-bounds or already-attacked cells and
otherwise marks the cell attacked and reports `hit` iff the cell holds a ship
id, `sunk` iff every cell of the hit ship is attacked afterwards, and
`game_over` iff every cell of every ship is attacked afterwards (computed
over the whole ship list, independent of which ship was hit and of the order
of earlier attacks). -/
theorem apply_attack_correct (b : Board) (hsize : 0 < b.size) (row col : Nat) :
    (((b.size ≤ row ∨ b.size ≤ col) ∨
        (b.cells (idx b.size row col)).attacked = true) →
      (∃ e, (apply_attack b row col).1 = Except.error e) ∧
        (apply_attack b row col).2 = b) ∧
    (∀ hit sunk sid go,
      (apply_attack b row col).1 = Except.ok (hit, sunk, sid, go) →
      row < b.size ∧ col < b.size ∧
        (b.cells (idx b.size row col)).attacked = false ∧
        (apply_attack b row col).2.size = b.size ∧
        (apply_attack b row col).2.ships = b.ships ∧
        (∀ i, (apply_attack b row col).2.cells i =
          if i = idx b.size row col then
            { b.cells i with attacked := true }
          else b.cells i) ∧
        sid = (b.cells (idx b.size row col)).ship_id ∧
        (hit = true ↔ (b.cells (idx b.size row col)).ship_id.isSome = true) ∧
        (sunk = true ↔ ∃ sid0 ship, sid = some sid0 ∧
          b.ships.find? (fun s => s.id == sid0) = some ship ∧
          ∀ c ∈ ship.cells,
            ((apply_attack b row col).2.cells (idx b.size c.row c.col)).attacked = true) ∧
        (go = true ↔ ∀ ship ∈ b.ships, ∀ c ∈ ship.cells,
          ((apply_attack b row col).2.cells (idx b.size c.row c.col)).attacked = true)) := by
  by_cases hb : b.size - 1 < row ∨ b.size - 1 < col
  · have hb' : b.size ≤ row ∨ b.size ≤ col := by omega
    constructor
    · intro _
      refine ⟨⟨"Attack out of bounds", ?_⟩, ?_⟩ <;>
        simp only [apply_attack, if_pos hb]
    · intro hit sunk sid go hok
      simp only [apply_attack, if_pos hb] at hok
      exact Except.noConfusion hok
  · have hb' : ¬(b.size ≤ row ∨ b.size ≤ col) := by omega
    by_cases hatt : (b.cells (idx b.size row col)).attacked = true
    · constructor
      · intro _
        refine ⟨⟨"Cell already attacked", ?_⟩, ?_⟩ <;>
          simp only [apply_attack, if_neg hb, hatt, if_true]
      · intro hit sunk sid go hok
        simp only [apply_attack, if_neg hb, hatt, if_true] at hok
        exact Except.noConfusion hok
    · have hattf : (b.cells (idx b.size row col)).attacked = false :=
        Bool.eq_false_iff.mpr hatt
      have hred : apply_attack b row col =
          (Except.ok
            ((b.cells (idx b.size row col)).ship_id.isSome,
             attackSunk b (idx b.size row col),
             (b.cells (idx b.size row col)).ship_id,
             attackGameOver b (idx b.size row col)),
           { b with cells := attackedCells b (idx b.size row col) }) := by
        simp only [apply_attack, if_neg hb, hattf, Bool.false_eq_true, if_false]
      constructor
      · intro h
        rcases h with h | h
        · exact absurd h hb'
        · exact absurd h hatt
      · intro hit sunk sid go hok
        rw [hred] at hok
        injection hok with hok
        injection hok with h1 hok
        injection hok with h2 hok
        injection hok with h3 h4
        rw [hred]
        refine ⟨by omega, by omega, hattf, rfl, rfl, fun i => rfl, h3.symm, ?_, ?_, ?_⟩
        · rw [← h1]
        · rw [← h2, ← h3]
          exact attackSunk_iff b (idx b.size row col)
        · rw [← h4]
          exact attackGameOver_iff b (idx b.size row col)

/-- Witness for C1: the demo board rejects the out-of-bounds shot (5,0)
unchanged. -/
theorem apply_attack_correct_witness :
    (∃ e, (apply_attack demoBoard 5 0).1 = Except.error e) ∧
      (apply_attack demoBoard 5 0).2 = demoBoard :=
  (apply_attack_correct demoBoard (by decide) 5 0).1 (Or.inl (by decide))

/-- C9: the empty placement list builds a shipless board on any positive
size, and the first in-bounds attack on it reports a miss with
`game_over = true` vacuously. -/
theorem empty_placements_ok (size : Nat) (hsize : 0 < size) (row col : Nat)
    (hr : row < size) (hc : col < size) :
    ∃ b, validate_and_build_board size [] = Except.ok b ∧ b.ships = [] ∧
      (apply_attack b row col).1 =
        Except.ok (false, false, none, true) := by
  refine ⟨{ size := size, cells := fun _ => ⟨none, false⟩, ships := [] }, ?_, rfl, ?_⟩
  · unfold validate_and_build_board
    rw [if_neg (by omega)]
    rfl
  · have h1 : ¬(size - 1 < row ∨ size - 1 < col) := by omega
    simp only [apply_attack, if_neg h1]
    rfl

/-- Witness for C9 on a 3x3 board attacked at (1,1). -/
theorem empty_placements_ok_witness :
    ∃ b, validate_and_build_board 3 [] = Except.ok b ∧ b.ships = [] ∧
      (apply_attack b 1 1).1 = Except.ok (false, false, none, true) :=
  empty_placements_ok 3 (by decide) 1 1 (by decide) (by decide)

/-- C5: in-game attack validity errors are non-fatal and state-preserving:
an erroring `apply_attack` returns the board untouched; re-attacking a
just-attacked cell errors without changing the board again; and on an attack
error the defender replies `RevealResult` with `valid = false` and the error
text while leaving its room, board and enemy view unchanged. -/
theorem attack_error_nonfatal :
    (∀ (b : Board) (row col : Nat) (e : String),
      (apply_attack b row col).1 = Except.error e →
      (apply_attack b row col).2 = b) ∧
    (∀ (b : Board) (row col : Nat) (r : Bool × Bool × Option Nat × Bool),
      (apply_attack b row col).1 = Except.ok r →
      (apply_attack (apply_attack b row col).2 row col).1 =
          Except.error "Cell already attacked" ∧
        (apply_attack (apply_attack b row col).2 row col).2 =
          (apply_attack b row col).2) ∧
    (∀ (selfChain : String) (time : Nat) (st : ContractState) (room : Room)
        (attacker : String) (row col : Nat) (board : Board) (err : String),
      st.room = some room → room.game_state = GameState.InGame →
      room.current_attacker = some attacker → st.board = some board →
      (apply_attack board row col).1 = Except.error err →
      ∃ st', handleAttackRequest selfChain time st attacker row col =
          Except.ok (st',
            [(attacker, CrossChainMessage.RevealResult selfChain row col false
                (some err) false false none none attacker false none)]) ∧
        st'.room = st.room ∧ st'.board = st.board ∧
        st'.enemy_view = st.enemy_view) := by
  refine ⟨?_, ?_, ?_⟩
  · intro b row col e h
    by_cases hb : b.size - 1 < row ∨ b.size - 1 < col
    · simp only [apply_attack, if_pos hb]
    · by_cases hatt : (b.cells (idx b.size row col)).attacked = true
      · simp only [apply_attack, if_neg hb, hatt, if_true]
      · have hattf : (b.cells (idx b.size row col)).attacked = false :=
          Bool.eq_false_iff.mpr hatt
        simp only [apply_attack, if_neg hb, hattf, Bool.false_eq_true,
          if_false] at h
        exact Except.noConfusion h
  · intro b row col r h
    by_cases hb : b.size - 1 < row ∨ b.size - 1 < col
    · simp only [apply_attack, if_pos hb] at h
      exact Except.noConfusion h
    · by_cases hatt : (b.cells (idx b.size row col)).attacked = true
      · simp only [apply_attack, if_neg hb, hatt, if_true] at h
        exact Except.noConfusion h
      · have hattf : (b.cells (idx b.size row col)).attacked = false :=
          Bool.eq_false_iff.mpr hatt
        have hred : (apply_attack b row col).2 =
            { b with cells := attackedCells b (idx b.size row col) } := by
          simp only [apply_attack, if_neg hb, hattf, Bool.false_eq_true, if_false]
        rw [hred]
        have hatt2 : (attackedCells b (idx b.size row col)
            (idx b.size row col)).attacked = true := by
          unfold attackedCells
          rw [if_pos rfl]
        constructor
        · simp only [apply_attack, if_neg hb, hatt2, if_true]
        · simp only [apply_attack, if_neg hb, hatt2, if_true]
  · intro selfChain time st room attacker row col board err hroom hg hca hbd herr
    have hpair : apply_attack board row col =
        (Except.error err, (apply_attack board row col).2) := by
      exact Prod.ext herr rfl
    have hgoal : handleAttackRequest selfChain time st attacker row col =
        Except.ok
          ({ st with last_reveal := some (RevealInfo.mk attacker selfChain
              row col false (some err) false false none none attacker false
              none time) },
           [(attacker, CrossChainMessage.RevealResult selfChain row col false
               (some err) false false none none attacker false none)]) := by
      unfold handleAttackRequest
      rw [hroom, hbd]
      dsimp only
      rw [hg, hca, hpair]
      simp
    exact ⟨_, hgoal, rfl, rfl, rfl⟩

/-- Witness for C5: out-of-bounds shot leaves the demo board unchanged,
re-attacking (0,0) errors, and the defender replies a non-fatal invalid
result. -/
theorem attack_error_nonfatal_witness :
    (apply_attack demoBoard 5 0).2 = demoBoard ∧
      ((apply_attack (apply_attack demoBoard 0 0).2 0 0).1 =
        Except.error "Cell already attacked") ∧
      (∃ st', handleAttackRequest "B" 7 demoDefenderState "A" 5 0 =
          Except.ok (st',
            [("A", CrossChainMessage.RevealResult "B" 5 0 false
                (some "Attack out of bounds") false false none none "A" false
                none)]) ∧
        st'.room = demoDefenderState.room ∧
        st'.board = demoDefenderState.board ∧
        st'.enemy_view = demoDefenderState.enemy_view) :=
  ⟨attack_error_nonfatal.1 demoBoard 5 0 "Attack out of bounds" rfl,
   (attack_error_nonfatal.2.1 demoBoard 0 0 (true, false, some 0, false) rfl).1,
   attack_error_nonfatal.2.2 "B" 7 demoDefenderState demoRoomInGame "A" 5 0
     demoBoard "Attack out of bounds" rfl rfl rfl rfl rfl⟩

end Battleship

namespace Battleship

/-- C3: the defender silently ignores `AttackRequest` when not `InGame` or
when the sender is not the recorded current attacker; after a valid attack the
turn goes to the attacker on a hit and to the defender on a miss, the pending
attack is cleared, and on `game_over` the room becomes `Ended` with the
attacker as winner; once the game state is `Ended` a local `Attack` operation
is rejected fatally. -/
theorem attackRequest_turn_and_end :
    (∀ (selfChain : String) (time : Nat) (st : ContractState) (room : Room)
        (attacker : String) (row col : Nat),
      st.room = some room →
      (room.game_state ≠ GameState.InGame ∨
        room.current_attacker ≠ some attacker) →
      handleAttackRequest selfChain time st attacker row col =
        Except.ok (st, [])) ∧
    (∀ (selfChain : String) (time : Nat) (st : ContractState) (room : Room)
        (attacker : String) (row col : Nat) (board : Board)
        (hit sunk : Bool) (sid : Option Nat) (go : Bool) (b1 : Board),
      st.room = some room → room.game_state = GameState.InGame →
      room.current_attacker = some attacker → st.board = some board →
      apply_attack board row col = (Except.ok (hit, sunk, sid, go), b1) →
      ∃ st' msgs room',
        handleAttackRequest selfChain time st attacker row col =
          Except.ok (st', msgs) ∧
        st'.room = some room' ∧
        room'.current_attacker = some (if hit then attacker else selfChain) ∧
        room'.pending_attack = none ∧
        (go = true →
          room'.game_state = GameState.Ended ∧
          room'.status = RoomStatus.Ended ∧
          room'.winner_chain_id = some attacker) ∧
        (go = false →
          room'.game_state = room.game_state ∧ room'.status = room.status ∧
          room'.winner_chain_id = room.winner_chain_id)) ∧
    (∀ (selfChain : String) (st : ContractState) (room : Room) (row col : Nat),
      st.room = some room → room.game_state = GameState.Ended →
      ∃ e, executeAttack selfChain st row col = Except.error e) := by
  refine ⟨?_, ?_, ?_⟩
  · intro selfChain time st room attacker row col hroom hrej
    unfold handleAttackRequest
    rw [hroom]
    dsimp only
    by_cases hg : room.game_state ≠ GameState.InGame
    · rw [if_pos hg]
    · rcases hrej with h | h
      · exact absurd h hg
      · rw [if_neg hg, if_pos h]
  · intro selfChain time st room attacker row col board hit sunk sid go b1
      hroom hg hca hbd happly
    unfold handleAttackRequest
    rw [hroom, hbd]
    dsimp only
    rw [hg, hca, happly]
    simp only [ne_eq, not_true_eq_false, if_false]
    refine ⟨_, _, _, rfl, rfl, ?_, ?_, ?_, ?_⟩
    · cases go <;> simp
    · cases go <;> simp
    · intro hgo
      subst hgo
      simp
    · intro hgo
      subst hgo
      simp
  · intro selfChain st room row col hroom hg
    refine ⟨"Game not started", ?_⟩
    unfold executeAttack
    rw [hroom]
    dsimp only
    rw [hg]
    rw [if_pos (by decide)]

/-- Witness for C3: a stale attack request from the wrong sender is a silent
no-op, a miss passes the turn to the defender, and attacking after the game
ended is rejected. -/
theorem attackRequest_turn_and_end_witness :
    handleAttackRequest "B" 7 demoDefenderState "B" 0 0 =
        Except.ok (demoDefenderState, []) ∧
      (∃ st' msgs room',
        handleAttackRequest "B" 7 demoDefenderState "A" 2 2 =
          Except.ok (st', msgs) ∧
        st'.room = some room' ∧
        room'.current_attacker = some "B" ∧
        room'.pending_attack = none ∧
        (false = true →
          room'.game_state = GameState.Ended ∧
          room'.status = RoomStatus.Ended ∧
          room'.winner_chain_id = some "A") ∧
        (false = false →
          room'.game_state = demoRoomInGame.game_state ∧
          room'.status = demoRoomInGame.status ∧
          room'.winner_chain_id = demoRoomInGame.winner_chain_id)) ∧
      ∃ e, executeAttack "B" endedRoomState 0 0 = Except.error e :=
  ⟨attackRequest_turn_and_end.1 "B" 7 demoDefenderState demoRoomInGame "B" 0 0
      rfl (Or.inr (by decide)),
   attackRequest_turn_and_end.2.1 "B" 7 demoDefenderState demoRoomInGame "A"
      2 2 demoBoard false false none false (apply_attack demoBoard 2 2).2
      rfl rfl rfl rfl (Prod.ext rfl rfl),
   attackRequest_turn_and_end.2.2 "B" endedRoomState endedDemoRoom 0 0 rfl rfl⟩

/-- C6: accepting a stored invitation sends a `JoinRequest` to the host
exactly when the current time is strictly after the invitation timestamp and
the elapsed time is at most 300,000,000 microseconds; nothing is sent on
rejection. -/
theorem acceptInvite_freshness_window :
    ∀ (selfChain : String) (time : Nat) (st : ContractState)
      (host player_name : String) (pos : Nat) (invite : Invitation),
      st.room_invitations.findIdx?
          (fun inv => inv.host_chain_id == host) = some pos →
      st.room_invitations.getD pos { host_chain_id := "", timestamp := 0 } = invite →
      ((executeAcceptInvite selfChain time st host player_name).2 =
          [(host, CrossChainMessage.JoinRequest selfChain player_name)] ↔
        (invite.timestamp < time ∧ time - invite.timestamp ≤ 300000000)) ∧
      (¬(invite.timestamp < time ∧ time - invite.timestamp ≤ 300000000) →
        (executeAcceptInvite selfChain time st host player_name).2 = []) := by
  intro selfChain time st host player_name pos invite hfind hget
  unfold executeAcceptInvite
  rw [hfind]
  dsimp only
  rw [hget]
  by_cases hcond : invite.timestamp < time ∧ time - invite.timestamp ≤ 300000000
  · rw [if_pos hcond]
    exact ⟨Iff.intro (fun _ => hcond) (fun _ => rfl), fun h => absurd hcond h⟩
  · rw [if_neg hcond]
    exact ⟨Iff.intro (fun h => List.noConfusion h) (fun h => absurd h hcond),
      fun _ => rfl⟩

/-- Witness for C6 at the boundary: elapsed 300,000,000 is accepted, elapsed
300,000,001 is rejected, and current time equal to the timestamp is
rejected. -/
theorem acceptInvite_freshness_window_witness :
    ((executeAcceptInvite "M" 300001000 invitedState "H" "mia").2 =
        [("H", CrossChainMessage.JoinRequest "M" "mia")]) ∧
      ((executeAcceptInvite "M" 300001001 invitedState "H" "mia").2 = []) ∧
      ((executeAcceptInvite "M" 1000 invitedState "H" "mia").2 = []) :=
  ⟨(acceptInvite_freshness_window "M" 300001000 invitedState "H" "mia" 0
      { host_chain_id := "H", timestamp := 1000 } rfl rfl).1.mpr (by decide),
   (acceptInvite_freshness_window "M" 300001001 invitedState "H" "mia" 0
      { host_chain_id := "H", timestamp := 1000 } rfl rfl).2 (by decide),
   (acceptInvite_freshness_window "M" 1000 invitedState "H" "mia" 0
      { host_chain_id := "H", timestamp := 1000 } rfl rfl).2 (by decide)⟩

/-- C10: `AcceptInvite` removes the matching invitation before the freshness
check, so the invitation is consumed (the list shrinks by one) even when the
acceptance is rejected, and a rejected acceptance sends no message. -/
theorem acceptInvite_consumes_invitation :
    ∀ (selfChain : String) (time : Nat) (st : ContractState)
      (host player_name : String) (pos : Nat),
      st.room_invitations.findIdx?
          (fun inv => inv.host_chain_id == host) = some pos →
      ((executeAcceptInvite selfChain time st host player_name).1.room_invitations =
          st.room_invitations.eraseIdx pos) ∧
      ((executeAcceptInvite selfChain time st host player_name).1.room_invitations.length + 1 =
          st.room_invitations.length) ∧
      (¬((st.room_invitations.getD pos { host_chain_id := "", timestamp := 0 }).timestamp < time ∧
          time - (st.room_invitations.getD pos { host_chain_id := "", timestamp := 0 }).timestamp ≤ 300000000) →
        (executeAcceptInvite selfChain time st host player_name).2 = []) := by
  intro selfChain time st host player_name pos hfind
  have hlt : pos < st.room_invitations.length :=
    (List.findIdx?_eq_some_iff_findIdx_eq.mp hfind).1
  have herase :
      (executeAcceptInvite selfChain time st host player_name).1.room_invitations =
        st.room_invitations.eraseIdx pos := by
    unfold executeAcceptInvite
    rw [hfind]
    dsimp only
    by_cases hcond : (st.room_invitations.getD pos
        { host_chain_id := "", timestamp := 0 }).timestamp < time ∧
        time - (st.room_invitations.getD pos
          { host_chain_id := "", timestamp := 0 }).timestamp ≤ 300000000
    · rw [if_pos hcond]
    · rw [if_neg hcond]
  refine ⟨herase, ?_, ?_⟩
  · rw [herase]
    rw [List.length_eraseIdx_add_one hlt]
  · intro hcond
    unfold executeAcceptInvite
    rw [hfind]
    dsimp only
    rw [if_neg hcond]

/-- Witness for C10: a stale acceptance still consumes the stored invitation
and sends nothing. -/
theorem acceptInvite_consumes_invitation_witness :
    ((executeAcceptInvite "M" 400000000 invitedState "H" "mia").1.room_invitations =
        invitedState.room_invitations.eraseIdx 0) ∧
      ((executeAcceptInvite "M" 400000000 invitedState "H" "mia").1.room_invitations.length + 1 =
        invitedState.room_invitations.length) ∧
      (¬((invitedState.room_invitations.getD 0 { host_chain_id := "", timestamp := 0 }).timestamp < 400000000 ∧
          400000000 - (invitedState.room_invitations.getD 0 { host_chain_id := "", timestamp := 0 }).timestamp ≤ 300000000) →
        (executeAcceptInvite "M" 400000000 invitedState "H" "mia").2 = []) :=
  acceptInvite_consumes_invitation "M" 400000000 invitedState "H" "mia" 0 rfl

end Battleship

namespace Battleship

/-- C7: matchmaking enqueue is idempotent per chain id, always acknowledges
the player first, and whenever the queue after the enqueue step holds at least
two entries, exactly the two earliest are removed in FIFO order with the
earlier one as host; enqueuing A then B then C pairs (A,B) and leaves C
queued. -/
theorem matchmaking_enqueue_fifo :
    (∀ (selfChain : String) (st : ContractState) (p name : String),
      st.matchmaking_queue.any (fun q => q.chain_id == p) = true →
      st.matchmaking_queue.length < 2 →
      handleMatchmakingEnqueue selfChain st p name =
        (st, [(p, CrossChainMessage.MatchmakingEnqueued selfChain)])) ∧
    (∀ (selfChain : String) (st : ContractState) (p name : String),
      (handleMatchmakingEnqueue selfChain st p name).2.head? =
        some (p, CrossChainMessage.MatchmakingEnqueued selfChain)) ∧
    (∀ (selfChain : String) (st : ContractState) (p name : String)
        (host guest : MatchmakingPlayer) (rest : List MatchmakingPlayer),
      enqueueQueue st.matchmaking_queue p name = host :: guest :: rest →
      (handleMatchmakingEnqueue selfChain st p name).1.matchmaking_queue = rest ∧
      (handleMatchmakingEnqueue selfChain st p name).2 =
        [(p, CrossChainMessage.MatchmakingEnqueued selfChain),
         (host.chain_id, CrossChainMessage.MatchmakingStart host.player_name
            guest.chain_id guest.player_name),
         (guest.chain_id, CrossChainMessage.MatchmakingFound host.chain_id)]) ∧
    (∀ (selfChain : String) (st : ContractState) (p name : String),
      st.matchmaking_queue.length ≤ 1 →
      (handleMatchmakingEnqueue selfChain st p name).1.matchmaking_queue.length ≤ 1) ∧
    ((handleMatchmakingEnqueue "O" instantiateState "A" "a").1.matchmaking_queue =
        [{ chain_id := "A", player_name := "a" }] ∧
      (handleMatchmakingEnqueue "O"
          (handleMatchmakingEnqueue "O" instantiateState "A" "a").1 "B" "b").2 =
        [("B", CrossChainMessage.MatchmakingEnqueued "O"),
         ("A", CrossChainMessage.MatchmakingStart "a" "B" "b"),
         ("B", CrossChainMessage.MatchmakingFound "A")] ∧
      (handleMatchmakingEnqueue "O"
          (handleMatchmakingEnqueue "O" instantiateState "A" "a").1 "B" "b").1.matchmaking_queue =
        [] ∧
      (handleMatchmakingEnqueue "O"
          (handleMatchmakingEnqueue "O"
            (handleMatchmakingEnqueue "O" instantiateState "A" "a").1 "B" "b").1
          "C" "c").1.matchmaking_queue =
        [{ chain_id := "C", player_name := "c" }]) := by
  refine ⟨?_, ?_, ?_, ?_, ?_, ?_, ?_, ?_⟩
  · intro selfChain st p name hmem hlen
    unfold handleMatchmakingEnqueue
    have hq : enqueueQueue st.matchmaking_queue p name = st.matchmaking_queue := by
      unfold enqueueQueue
      rw [if_pos hmem]
    dsimp only
    rw [hq, if_pos hlen]
  · intro selfChain st p name
    unfold handleMatchmakingEnqueue
    dsimp only
    split
    · rfl
    · split
      · rfl
      · rfl
  · intro selfChain st p name host guest rest henq
    unfold handleMatchmakingEnqueue
    dsimp only
    rw [henq]
    rw [if_neg (by simp)]
    exact ⟨rfl, rfl⟩
  · intro selfChain st p name hlen
    unfold handleMatchmakingEnqueue
    dsimp only
    by_cases hmem : st.matchmaking_queue.any (fun q => q.chain_id == p) = true
    · have hq : enqueueQueue st.matchmaking_queue p name = st.matchmaking_queue := by
        unfold enqueueQueue
        rw [if_pos hmem]
      rw [hq, if_pos (by omega)]
      exact hlen
    · have hq : enqueueQueue st.matchmaking_queue p name =
          st.matchmaking_queue ++ [{ chain_id := p, player_name := name }] := by
        unfold enqueueQueue
        rw [if_neg hmem]
      rw [hq]
      match hmq : st.matchmaking_queue, hlen with
      | [], _ =>
        rw [if_pos (by simp)]
        simp
      | [q], _ =>
        rw [if_neg (by simp)]
        simp
  · rfl
  · rfl
  · rfl
  · rfl

/-- Witness for C7: re-enqueueing the queued "A" changes nothing, and
enqueueing "B" onto the queue ["A"] pairs them with "A" as host. -/
theorem matchmaking_enqueue_fifo_witness :
    (handleMatchmakingEnqueue "O" queuedState "A" "a2" =
        (queuedState, [("A", CrossChainMessage.MatchmakingEnqueued "O")])) ∧
      ((handleMatchmakingEnqueue "O" queuedState "B" "b").1.matchmaking_queue = [] ∧
        (handleMatchmakingEnqueue "O" queuedState "B" "b").2 =
          [("B", CrossChainMessage.MatchmakingEnqueued "O"),
           ("A", CrossChainMessage.MatchmakingStart "a" "B" "b"),
           ("B", CrossChainMessage.MatchmakingFound "A")]) ∧
      ((handleMatchmakingEnqueue "O" queuedState "C" "c").1.matchmaking_queue.length ≤ 1) :=
  ⟨matchmaking_enqueue_fifo.1 "O" queuedState "A" "a2" (by decide) (by decide),
   matchmaking_enqueue_fifo.2.2.1 "O" queuedState "B" "b"
     { chain_id := "A", player_name := "a" }
     { chain_id := "B", player_name := "b" } [] (by decide),
   matchmaking_enqueue_fifo.2.2.2.1 "O" queuedState "C" "c" (by decide)⟩

/-- C8 (counterexample to the claim as stated): a `MatchmakingStart` received
while an `Active` room exists is a complete no-op — the old room survives, no
fresh `PlacingBoards` room is installed and no `InitialStateSync` is sent. -/
theorem matchmakingStart_active_noop_cex :
    handleMatchmakingStart "H" 42 activeRoomState "h" "G" "g" =
      (activeRoomState, []) ∧
    (handleMatchmakingStart "H" 42 activeRoomState "h" "G" "g").1.room =
      some activeDemoRoom ∧
    activeDemoRoom.game_state ≠ GameState.PlacingBoards ∧
    (handleMatchmakingStart "H" 42 activeRoomState "h" "G" "g").2 = [] :=
  ⟨rfl, rfl, by decide, rfl⟩

/-- C8 (amended): `MatchmakingStart` installs a fresh two-player
`PlacingBoards` room (host = self, guest from the message), clears the board,
resets the enemy view to a fresh all-Unknown view and syncs the guest —
provided no `Active` room exists; an `Active` room makes the message a
no-op. -/
theorem matchmakingStart_supersedes :
    (∀ (selfChain : String) (time : Nat) (st : ContractState)
        (host_name guest_chain_id guest_name : String),
      (st.room = none ∨
        ∃ room, st.room = some room ∧ room.status = RoomStatus.Ended) →
      ∃ newRoom : Room,
        handleMatchmakingStart selfChain time st host_name guest_chain_id
            guest_name =
          ({ st with board := none,
                     enemy_view := some (empty_enemy_view 10),
                     room := some newRoom,
                     last_reveal := none,
                     last_notification := some "Match found (host)" },
           [(guest_chain_id, CrossChainMessage.InitialStateSync newRoom)]) ∧
        newRoom.host_chain_id = selfChain ∧
        newRoom.status = RoomStatus.Active ∧
        newRoom.game_state = GameState.PlacingBoards ∧
        newRoom.players =
          [{ chain_id := selfChain, name := host_name, board_submitted := false },
           { chain_id := guest_chain_id, name := guest_name,
             board_submitted := false }] ∧
        newRoom.current_attacker = none ∧
        newRoom.pending_attack = none ∧
        newRoom.winner_chain_id = none) ∧
    (∀ (selfChain : String) (time : Nat) (st : ContractState)
        (room : Room) (host_name guest_chain_id guest_name : String),
      st.room = some room → room.status = RoomStatus.Active →
      handleMatchmakingStart selfChain time st host_name guest_chain_id
          guest_name = (st, [])) := by
  constructor
  · intro selfChain time st host_name guest_chain_id guest_name hpre
    have hfresh : handleMatchmakingStart selfChain time st host_name
        guest_chain_id guest_name =
        matchmakingStartFresh selfChain time st host_name guest_chain_id
          guest_name := by
      unfold handleMatchmakingStart
      rcases hpre with h | ⟨room, h, hs⟩
      · rw [h]
      · rw [h]
        dsimp only
        rw [if_neg (by rw [hs]; decide)]
    refine ⟨matchmakingRoom selfChain time host_name guest_chain_id guest_name,
      ?_, rfl, rfl, rfl, rfl, rfl, rfl, rfl⟩
    rw [hfresh]
    unfold matchmakingStartFresh
    dsimp only
    unfold ensure_enemy_view_created
    dsimp only [Option.isSome_none, Bool.false_eq_true, if_false]
    have hany : ((matchmakingRoom selfChain time host_name guest_chain_id
        guest_name).players.any (fun p => p.chain_id == guest_chain_id)) = true := by
      unfold matchmakingRoom
      simp
    rw [hany]
    rfl
  · intro selfChain time st room host_name guest_chain_id guest_name hroom hact
    unfold handleMatchmakingStart
    rw [hroom]
    dsimp only
    rw [if_pos hact]

/-- Witness for C8 (amended): a fresh peer accepts the match and instals the
two-player room; a peer in an active room ignores the message. -/
theorem matchmakingStart_supersedes_witness :
    (∃ newRoom : Room,
      handleMatchmakingStart "H" 42 instantiateState "h" "G" "g" =
        ({ instantiateState with
             board := none,
             enemy_view := some (empty_enemy_view 10),
             room := some newRoom,
             last_reveal := none,
             last_notification := some "Match found (host)" },
         [("G", CrossChainMessage.InitialStateSync newRoom)]) ∧
      newRoom.host_chain_id = "H" ∧
      newRoom.status = RoomStatus.Active ∧
      newRoom.game_state = GameState.PlacingBoards ∧
      newRoom.players =
        [{ chain_id := "H", name := "h", board_submitted := false },
         { chain_id := "G", name := "g", board_submitted := false }] ∧
      newRoom.current_attacker = none ∧
      newRoom.pending_attack = none ∧
      newRoom.winner_chain_id = none) ∧
    handleMatchmakingStart "H" 42 activeRoomState "h" "G" "g" =
      (activeRoomState, []) :=
  ⟨matchmakingStart_supersedes.1 "H" 42 instantiateState "h" "G" "g"
     (Or.inl rfl),
   matchmakingStart_supersedes.2 "H" 42 activeRoomState activeDemoRoom "h"
     "G" "g" rfl rfl⟩

end Battleship

namespace Battleship

/-- Flat indices of in-bounds coordinates stay below `size * size`. -/
theorem idx_lt (size r c : Nat) (hr : r < size) (hc : c < size) :
    idx size r c < size * size := by
  unfold idx
  calc r * size + c < r * size + size := by omega
    _ = (r + 1) * size := by ring
    _ ≤ size * size := Nat.mul_le_mul_right size hr

/-- Flat indexing is injective on in-bounds coordinates. -/
theorem idx_inj (size r c r' c' : Nat) (hc : c < size) (hc' : c' < size)
    (h : idx size r c = idx size r' c') : r = r' ∧ c = c' := by
  unfold idx at h
  rcases Nat.lt_trichotomy r r' with hlt | heq | hgt
  · exfalso
    have h2 : (r + 1) * size ≤ r' * size := Nat.mul_le_mul_right size hlt
    rw [Nat.succ_mul] at h2
    omega
  · subst heq
    omega
  · exfalso
    have h2 : (r' + 1) * size ≤ r * size := Nat.mul_le_mul_right size hgt
    rw [Nat.succ_mul] at h2
    omega

/-- Reading a list after `set` at an in-range index. -/
theorem getD_set_lemma (l : List EnemyCell) (i j : Nat) (a d : EnemyCell)
    (hi : i < l.length) :
    (l.set i a).getD j d = if j = i then a else l.getD j d := by
  by_cases hj : j = i
  · subst hj
    rw [if_pos rfl]
    rw [List.getD_eq_getElem _ d (by rw [List.length_set]; exact hi)]
    simp
  · rw [if_neg hj]
    rcases Nat.lt_or_ge j l.length with hjl | hjl
    · rw [List.getD_eq_getElem _ d (by rw [List.length_set]; exact hjl),
        List.getD_eq_getElem _ d hjl]
      rw [List.getElem_set_ne (by omega)]
    · rw [List.getD_eq_default _ d (by rw [List.length_set]; exact hjl),
        List.getD_eq_default _ d hjl]

/-- In bounds, `setCellOk` performs the store. -/
theorem setCellOk_inbounds (v : EnemyBoardView) (row col : Nat) (val : EnemyCell)
    (hr : row < v.size) (hc : col < v.size) :
    setCellOk v row col val =
      { v with cells := v.cells.set (idx v.size row col) val } := by
  unfold setCellOk set_enemy_view_cell
  rw [if_neg (by omega)]

/-- Function `setCellOk` never changes the declared size. -/
theorem setCellOk_size (v : EnemyBoardView) (row col : Nat) (val : EnemyCell) :
    (setCellOk v row col val).size = v.size := by
  unfold setCellOk set_enemy_view_cell
  by_cases h : v.size - 1 < row ∨ v.size - 1 < col
  · rw [if_pos h]
  · rw [if_neg h]

/-- Function `setCellOk` preserves well-formedness. -/
theorem setCellOk_wf (v : EnemyBoardView) (row col : Nat) (val : EnemyCell)
    (hwf : ViewWF v) : ViewWF (setCellOk v row col val) := by
  unfold setCellOk set_enemy_view_cell
  by_cases h : v.size - 1 < row ∨ v.size - 1 < col
  · rw [if_pos h]
    exact hwf
  · rw [if_neg h]
    unfold ViewWF at hwf ⊢
    rw [List.length_set]
    exact hwf

/-- Pointwise reading of a single `setCellOk` store. -/
theorem setCellOk_get (v : EnemyBoardView) (hwf : ViewWF v)
    (row col r c : Nat) (val : EnemyCell)
    (hrow : row < v.size) (hcol : col < v.size)
    (hr : r < v.size) (hc : c < v.size) :
    viewGet (setCellOk v row col val) r c =
      if r = row ∧ c = col then val else viewGet v r c := by
  rw [setCellOk_inbounds v row col val hrow hcol]
  unfold viewGet
  dsimp only
  rw [getD_set_lemma _ _ _ _ _ (by rw [hwf]; exact idx_lt v.size row col hrow hcol)]
  by_cases hij : idx v.size r c = idx v.size row col
  · rw [if_pos hij]
    obtain ⟨h1, h2⟩ := idx_inj v.size r c row col hc hcol hij
    rw [if_pos ⟨h1, h2⟩]
  · rw [if_neg hij]
    rw [if_neg (by rintro ⟨h1, h2⟩; subst h1; subst h2; exact hij rfl)]

/-- A fold whose step preserves the size preserves the size. -/
theorem foldl_view_size (f : EnemyBoardView → Coord → EnemyBoardView)
    (hsz : ∀ v c, (f v c).size = v.size) :
    ∀ (l : List Coord) (v : EnemyBoardView), (l.foldl f v).size = v.size := by
  intro l
  induction l with
  | nil => intro v; rfl
  | cons c t ih =>
    intro v
    rw [List.foldl_cons, ih (f v c), hsz v c]

/-- A fold whose step preserves well-formedness preserves it. -/
theorem foldl_view_wf (f : EnemyBoardView → Coord → EnemyBoardView)
    (hwfp : ∀ v c, ViewWF v → ViewWF (f v c)) :
    ∀ (l : List Coord) (v : EnemyBoardView), ViewWF v → ViewWF (l.foldl f v) := by
  intro l
  induction l with
  | nil => intro v h; exact h
  | cons c t ih =>
    intro v h
    rw [List.foldl_cons]
    exact ih (f v c) (hwfp v c h)

/-- Function `sunkStep` preserves the view size. -/
theorem sunkStep_size (v : EnemyBoardView) (c : Coord) :
    (sunkStep v c).size = v.size := setCellOk_size v c.row c.col EnemyCell.Sunk

/-- Function `sunkStep` preserves well-formedness. -/
theorem sunkStep_wf (v : EnemyBoardView) (c : Coord) (h : ViewWF v) :
    ViewWF (sunkStep v c) := setCellOk_wf v c.row c.col EnemyCell.Sunk h

/-- Function `adjacentMissStep` preserves the view size. -/
theorem adjacentMissStep_size (v : EnemyBoardView) (c : Coord) :
    (adjacentMissStep v c).size = v.size := by
  unfold adjacentMissStep
  dsimp only
  split
  · exact setCellOk_size v c.row c.col EnemyCell.Miss
  · rfl

/-- Function `adjacentMissStep` preserves well-formedness. -/
theorem adjacentMissStep_wf (v : EnemyBoardView) (c : Coord) (h : ViewWF v) :
    ViewWF (adjacentMissStep v c) := by
  unfold adjacentMissStep
  dsimp only
  split
  · exact setCellOk_wf v c.row c.col EnemyCell.Miss h
  · exact h

/-- Pointwise reading after marking a list of cells `Sunk`: a cell reads
`Sunk` exactly when it occurs in the list. -/
theorem foldSunk_get (l : List Coord) :
    ∀ (v : EnemyBoardView), ViewWF v →
    (∀ cc ∈ l, cc.row < v.size ∧ cc.col < v.size) →
    ∀ (r c : Nat), r < v.size → c < v.size →
    viewGet (l.foldl sunkStep v) r c =
      if ∃ cc ∈ l, cc.row = r ∧ cc.col = c then EnemyCell.Sunk
      else viewGet v r c := by
  induction l with
  | nil =>
    intro v hwf hl r c hr hc
    rw [List.foldl_nil, if_neg (by rintro ⟨cc, hmem, -⟩; exact List.not_mem_nil cc hmem)]
  | cons cc0 t ih =>
    intro v hwf hl r c hr hc
    rw [List.foldl_cons]
    have hcc0 := hl cc0 (List.mem_cons_self cc0 t)
    have hszeq : (sunkStep v cc0).size = v.size := sunkStep_size v cc0
    have ihres := ih (sunkStep v cc0) (sunkStep_wf v cc0 hwf)
      (by intro cc hcc; rw [hszeq]; exact hl cc (List.mem_cons_of_mem cc0 hcc))
      r c (by omega) (by omega)
    rw [ihres]
    unfold sunkStep
    rw [setCellOk_get v hwf cc0.row cc0.col r c EnemyCell.Sunk hcc0.1 hcc0.2 hr hc]
    by_cases hin : ∃ cc ∈ t, cc.row = r ∧ cc.col = c
    · have hin2 : ∃ cc ∈ cc0 :: t, cc.row = r ∧ cc.col = c := by
        obtain ⟨cc, hmem, h1, h2⟩ := hin
        exact ⟨cc, List.mem_cons_of_mem cc0 hmem, h1, h2⟩
      rw [if_pos hin, if_pos hin2]
    · rw [if_neg hin]
      by_cases hhd : r = cc0.row ∧ c = cc0.col
      · have hin2 : ∃ cc ∈ cc0 :: t, cc.row = r ∧ cc.col = c :=
          ⟨cc0, List.mem_cons_self cc0 t, hhd.1.symm, hhd.2.symm⟩
        rw [if_pos hhd, if_pos hin2]
      · have hnot : ¬∃ cc ∈ cc0 :: t, cc.row = r ∧ cc.col = c := by
          rintro ⟨cc, hmem, h1, h2⟩
          rcases List.mem_cons.mp hmem with h | h
          · subst h
            exact hhd ⟨h1.symm, h2.symm⟩
          · exact hin ⟨cc, h, h1, h2⟩
        rw [if_neg hhd, if_neg hnot]

end Battleship

namespace Battleship

/-- On an in-bounds well-formed view, the splash step writes `Miss` exactly
when the cell still reads `Unknown`. -/
theorem adjacentMissStep_eq (v : EnemyBoardView) (hwf : ViewWF v) (cc : Coord)
    (h1 : cc.row < v.size) (h2 : cc.col < v.size) :
    adjacentMissStep v cc =
      if viewGet v cc.row cc.col = EnemyCell.Unknown then
        setCellOk v cc.row cc.col EnemyCell.Miss
      else v := by
  unfold adjacentMissStep
  dsimp only
  have hidx : cc.row * v.size + cc.col < v.cells.length := by
    rw [hwf]
    exact idx_lt v.size cc.row cc.col h1 h2
  have hvg : viewGet v cc.row cc.col =
      v.cells.getD (cc.row * v.size + cc.col) EnemyCell.Unknown := rfl
  by_cases hu : v.cells.getD (cc.row * v.size + cc.col) EnemyCell.Unknown =
      EnemyCell.Unknown
  · have hcond : (decide (cc.row * v.size + cc.col < v.cells.length) &&
        (v.cells.getD (cc.row * v.size + cc.col) EnemyCell.Unknown ==
          EnemyCell.Unknown)) = true := by
      simp only [Bool.and_eq_true, decide_eq_true_eq, beq_iff_eq]
      exact ⟨hidx, hu⟩
    rw [if_pos hcond]
    have hvgu : viewGet v cc.row cc.col = EnemyCell.Unknown := by
      rw [hvg]
      exact hu
    rw [if_pos hvgu]
  · have hcond : ¬((decide (cc.row * v.size + cc.col < v.cells.length) &&
        (v.cells.getD (cc.row * v.size + cc.col) EnemyCell.Unknown ==
          EnemyCell.Unknown)) = true) := by
      simp only [Bool.and_eq_true, decide_eq_true_eq, beq_iff_eq]
      rintro ⟨-, h⟩
      exact hu h
    rw [if_neg hcond]
    have hvgu : ¬(viewGet v cc.row cc.col = EnemyCell.Unknown) := by
      rw [hvg]
      exact hu
    rw [if_neg hvgu]

/-- Pointwise reading after the splash loop: a cell becomes `Miss` exactly
when it occurs in the splash list and previously read `Unknown`. -/
theorem foldMiss_get (l : List Coord) :
    ∀ (v : EnemyBoardView), ViewWF v →
    (∀ cc ∈ l, cc.row < v.size ∧ cc.col < v.size) →
    ∀ (r c : Nat), r < v.size → c < v.size →
    viewGet (l.foldl adjacentMissStep v) r c =
      if (∃ cc ∈ l, cc.row = r ∧ cc.col = c) ∧
          viewGet v r c = EnemyCell.Unknown then EnemyCell.Miss
      else viewGet v r c := by
  induction l with
  | nil =>
    intro v hwf hl r c hr hc
    rw [List.foldl_nil]
    rw [if_neg (by rintro ⟨⟨cc, hmem, -⟩, -⟩; exact List.not_mem_nil cc hmem)]
  | cons cc0 t ih =>
    intro v hwf hl r c hr hc
    rw [List.foldl_cons]
    have hcc0 := hl cc0 (List.mem_cons_self cc0 t)
    rw [adjacentMissStep_eq v hwf cc0 hcc0.1 hcc0.2]
    by_cases hu0 : viewGet v cc0.row cc0.col = EnemyCell.Unknown
    · rw [if_pos hu0]
      have hsz : (setCellOk v cc0.row cc0.col EnemyCell.Miss).size = v.size :=
        setCellOk_size v cc0.row cc0.col EnemyCell.Miss
      have ihres := ih (setCellOk v cc0.row cc0.col EnemyCell.Miss)
        (setCellOk_wf v cc0.row cc0.col EnemyCell.Miss hwf)
        (by intro cc hcc; rw [hsz]; exact hl cc (List.mem_cons_of_mem cc0 hcc))
        r c (by omega) (by omega)
      rw [ihres]
      rw [setCellOk_get v hwf cc0.row cc0.col r c EnemyCell.Miss hcc0.1 hcc0.2 hr hc]
      by_cases hhd : r = cc0.row ∧ c = cc0.col
      · obtain ⟨hh1, hh2⟩ := hhd
        subst hh1
        subst hh2
        rw [if_pos (show cc0.row = cc0.row ∧ cc0.col = cc0.col from ⟨rfl, rfl⟩)]
        have hnomiss : ¬((∃ cc ∈ t, cc.row = cc0.row ∧ cc.col = cc0.col) ∧
            EnemyCell.Miss = EnemyCell.Unknown) := by
          rintro ⟨-, h⟩
          exact EnemyCell.noConfusion h
        rw [if_neg hnomiss]
        rw [if_pos ⟨⟨cc0, List.mem_cons_self cc0 t, rfl, rfl⟩, hu0⟩]
      · rw [if_neg hhd]
        by_cases hin : (∃ cc ∈ t, cc.row = r ∧ cc.col = c) ∧
            viewGet v r c = EnemyCell.Unknown
        · rw [if_pos hin]
          have hin2 : (∃ cc ∈ cc0 :: t, cc.row = r ∧ cc.col = c) ∧
              viewGet v r c = EnemyCell.Unknown := by
            obtain ⟨⟨cc, hmem, h1, h2⟩, hu⟩ := hin
            exact ⟨⟨cc, List.mem_cons_of_mem cc0 hmem, h1, h2⟩, hu⟩
          rw [if_pos hin2]
        · rw [if_neg hin]
          have hnot : ¬((∃ cc ∈ cc0 :: t, cc.row = r ∧ cc.col = c) ∧
              viewGet v r c = EnemyCell.Unknown) := by
            rintro ⟨⟨cc, hmem, h1, h2⟩, hu⟩
            rcases List.mem_cons.mp hmem with h | h
            · subst h
              exact hhd ⟨h1.symm, h2.symm⟩
            · exact hin ⟨⟨cc, h, h1, h2⟩, hu⟩
          rw [if_neg hnot]
    · rw [if_neg hu0]
      rw [ih v hwf (fun cc hcc => hl cc (List.mem_cons_of_mem cc0 hcc)) r c hr hc]
      by_cases hin : (∃ cc ∈ t, cc.row = r ∧ cc.col = c) ∧
          viewGet v r c = EnemyCell.Unknown
      · rw [if_pos hin]
        have hin2 : (∃ cc ∈ cc0 :: t, cc.row = r ∧ cc.col = c) ∧
            viewGet v r c = EnemyCell.Unknown := by
          obtain ⟨⟨cc, hmem, h1, h2⟩, hu⟩ := hin
          exact ⟨⟨cc, List.mem_cons_of_mem cc0 hmem, h1, h2⟩, hu⟩
        rw [if_pos hin2]
      · rw [if_neg hin]
        have hnot : ¬((∃ cc ∈ cc0 :: t, cc.row = r ∧ cc.col = c) ∧
            viewGet v r c = EnemyCell.Unknown) := by
          rintro ⟨⟨cc, hmem, h1, h2⟩, hu⟩
          rcases List.mem_cons.mp hmem with h | h
          · subst h
            exact hu0 (by rw [h1, h2]; exact hu)
          · exact hin ⟨⟨cc, h, h1, h2⟩, hu⟩
        rw [if_neg hnot]

end Battleship

namespace Battleship

/-- The `RevealResult` view update keeps the view size. -/
theorem revealViewUpdate_size (v0 : EnemyBoardView) (row col : Nat)
    (hit sunk : Bool) (scells acells : Option (List Coord)) :
    (revealViewUpdate v0 row col hit sunk scells acells).size = v0.size := by
  unfold revealViewUpdate
  cases sunk with
  | true =>
    rw [if_pos rfl]
    rw [foldl_view_size adjacentMissStep adjacentMissStep_size,
      foldl_view_size sunkStep sunkStep_size,
      setCellOk_size]
  | false =>
    rw [if_neg (by simp)]
    cases hit with
    | true =>
      rw [if_pos rfl, setCellOk_size]
    | false =>
      rw [if_neg (by simp), setCellOk_size]

/-- Pointwise characterisation of the `RevealResult` enemy-view update:
on `sunk` the hit cell and carried ship cells read `Sunk` and carried splash
cells read `Miss` only where previously `Unknown`; otherwise the single hit
cell reads `Hit` on a hit and `Miss` on a miss. -/
theorem revealViewUpdate_get (v0 : EnemyBoardView) (hwf : ViewWF v0)
    (row col : Nat) (hit sunk : Bool) (scells acells : Option (List Coord))
    (hrow : row < v0.size) (hcol : col < v0.size)
    (hsc : ∀ cc ∈ scells.getD [], cc.row < v0.size ∧ cc.col < v0.size)
    (hac : ∀ cc ∈ acells.getD [], cc.row < v0.size ∧ cc.col < v0.size)
    (r c : Nat) (hr : r < v0.size) (hc : c < v0.size) :
    viewGet (revealViewUpdate v0 row col hit sunk scells acells) r c =
      if sunk = true then
        if (r = row ∧ c = col) ∨
            (∃ cc ∈ scells.getD [], cc.row = r ∧ cc.col = c) then
          EnemyCell.Sunk
        else if (∃ cc ∈ acells.getD [], cc.row = r ∧ cc.col = c) ∧
            viewGet v0 r c = EnemyCell.Unknown then
          EnemyCell.Miss
        else viewGet v0 r c
      else if hit = true then
        if r = row ∧ c = col then EnemyCell.Hit else viewGet v0 r c
      else
        if r = row ∧ c = col then EnemyCell.Miss else viewGet v0 r c := by
  unfold revealViewUpdate
  cases sunk with
  | false =>
    cases hit with
    | true =>
      simp only [Bool.false_eq_true, if_false, if_true]
      exact setCellOk_get v0 hwf row col r c EnemyCell.Hit hrow hcol hr hc
    | false =>
      simp only [Bool.false_eq_true, if_false]
      exact setCellOk_get v0 hwf row col r c EnemyCell.Miss hrow hcol hr hc
  | true =>
    rw [if_pos rfl, if_pos rfl]
    have h1size : (setCellOk v0 row col EnemyCell.Sunk).size = v0.size :=
      setCellOk_size v0 row col EnemyCell.Sunk
    have h1wf : ViewWF (setCellOk v0 row col EnemyCell.Sunk) :=
      setCellOk_wf v0 row col EnemyCell.Sunk hwf
    have h2size : ((scells.getD []).foldl sunkStep
        (setCellOk v0 row col EnemyCell.Sunk)).size = v0.size := by
      rw [foldl_view_size sunkStep sunkStep_size, h1size]
    have h2wf : ViewWF ((scells.getD []).foldl sunkStep
        (setCellOk v0 row col EnemyCell.Sunk)) :=
      foldl_view_wf sunkStep sunkStep_wf _ _ h1wf
    have hmiss := foldMiss_get (acells.getD [])
      ((scells.getD []).foldl sunkStep (setCellOk v0 row col EnemyCell.Sunk))
      h2wf
      (by intro cc hcc; rw [h2size]; exact hac cc hcc)
      r c (by omega) (by omega)
    rw [hmiss]
    have hsunk := foldSunk_get (scells.getD [])
      (setCellOk v0 row col EnemyCell.Sunk) h1wf
      (by intro cc hcc; rw [h1size]; exact hsc cc hcc)
      r c (by omega) (by omega)
    rw [hsunk]
    rw [setCellOk_get v0 hwf row col r c EnemyCell.Sunk hrow hcol hr hc]
    by_cases hS : ∃ cc ∈ scells.getD [], cc.row = r ∧ cc.col = c
    · rw [if_pos hS]
      have hnomiss : ¬((∃ cc ∈ acells.getD [], cc.row = r ∧ cc.col = c) ∧
          EnemyCell.Sunk = EnemyCell.Unknown) := by
        rintro ⟨-, h⟩
        exact EnemyCell.noConfusion h
      rw [if_neg hnomiss, if_pos (Or.inr hS)]
    · rw [if_neg hS]
      by_cases hA : r = row ∧ c = col
      · rw [if_pos hA]
        have hnomiss : ¬((∃ cc ∈ acells.getD [], cc.row = r ∧ cc.col = c) ∧
            EnemyCell.Sunk = EnemyCell.Unknown) := by
          rintro ⟨-, h⟩
          exact EnemyCell.noConfusion h
        rw [if_neg hnomiss, if_pos (Or.inl hA)]
      · rw [if_neg hA]
        rw [if_neg (show ¬((r = row ∧ c = col) ∨
          ∃ cc ∈ scells.getD [], cc.row = r ∧ cc.col = c) from
            fun h => h.elim hA hS)]

end Battleship

namespace Battleship

/-- C4: the attacker-side `RevealResult` handler is a no-op whenever no
pending attack exists or its coordinate differs from the reply's; on
acceptance of a valid result it updates the enemy view cell-by-cell (`Sunk`
for the hit cell and all carried ship cells of a sunk ship, `Miss` for splash
cells only if previously `Unknown`, else `Hit` on a hit and `Miss` on a
miss), sets the current attacker to the carried next attacker, clears the
pending attack, and on `game_over` sets game state and status to `Ended` with
the carried winner. -/
theorem revealResult_accept_and_update :
    (∀ (selfChain : String) (time : Nat) (st : ContractState) (room : Room)
        (defender : String) (row col : Nat) (valid : Bool)
        (error : Option String) (hit sunk : Bool)
        (scells acells : Option (List Coord)) (next : String) (go : Bool)
        (winner : Option String),
      st.room = some room →
      (room.pending_attack = none ∨
        ∃ p, room.pending_attack = some p ∧ (p.row ≠ row ∨ p.col ≠ col)) →
      handleRevealResult selfChain time st defender row col valid error hit
          sunk scells acells next go winner = Except.ok (st, [])) ∧
    (∀ (selfChain : String) (time : Nat) (st : ContractState) (room : Room)
        (v0 : EnemyBoardView) (defender : String) (row col : Nat)
        (error : Option String) (hit sunk : Bool)
        (scells acells : Option (List Coord)) (next : String) (go : Bool)
        (winner : Option String),
      st.room = some room →
      (room.game_state = GameState.InGame ∨
        room.game_state = GameState.Ended) →
      room.pending_attack = some { row := row, col := col } →
      st.enemy_view = some v0 → ViewWF v0 →
      row < v0.size → col < v0.size →
      (∀ cc ∈ scells.getD [], cc.row < v0.size ∧ cc.col < v0.size) →
      (∀ cc ∈ acells.getD [], cc.row < v0.size ∧ cc.col < v0.size) →
      ∃ st' room' v',
        handleRevealResult selfChain time st defender row col true error hit
            sunk scells acells next go winner = Except.ok (st', []) ∧
        st'.room = some room' ∧
        room'.current_attacker = some next ∧
        room'.pending_attack = none ∧
        (go = true →
          room'.game_state = GameState.Ended ∧
          room'.status = RoomStatus.Ended ∧
          room'.winner_chain_id = winner) ∧
        (go = false →
          room'.game_state = room.game_state ∧ room'.status = room.status ∧
          room'.winner_chain_id = room.winner_chain_id) ∧
        st'.enemy_view = some v' ∧
        v'.size = v0.size ∧
        (∀ r c, r < v0.size → c < v0.size →
          viewGet v' r c =
            if sunk = true then
              if (r = row ∧ c = col) ∨
                  (∃ cc ∈ scells.getD [], cc.row = r ∧ cc.col = c) then
                EnemyCell.Sunk
              else if (∃ cc ∈ acells.getD [], cc.row = r ∧ cc.col = c) ∧
                  viewGet v0 r c = EnemyCell.Unknown then
                EnemyCell.Miss
              else viewGet v0 r c
            else if hit = true then
              if r = row ∧ c = col then EnemyCell.Hit else viewGet v0 r c
            else
              if r = row ∧ c = col then EnemyCell.Miss else viewGet v0 r c)) := by
  constructor
  · intro selfChain time st room defender row col valid error hit sunk scells
      acells next go winner hroom hrej
    unfold handleRevealResult
    rw [hroom]
    dsimp only
    by_cases hg : room.game_state ≠ GameState.InGame ∧
        room.game_state ≠ GameState.Ended
    · rw [if_pos hg]
    · rw [if_neg hg]
      rcases hrej with hp | ⟨p, hp, hne⟩
      · rw [hp]
      · rw [hp]
        dsimp only
        rw [if_pos hne]
  · intro selfChain time st room v0 defender row col error hit sunk scells
      acells next go winner hroom hg hpend hev hwf hrow hcol hsc hac
    unfold handleRevealResult
    rw [hroom]
    dsimp only
    rw [if_neg (by rintro ⟨h1, h2⟩; rcases hg with h | h; exact h1 h; exact h2 h)]
    rw [hpend]
    dsimp only
    rw [if_neg (by rintro (h | h) <;> exact h rfl)]
    rw [hev]
    refine ⟨_, _, _, rfl, rfl, ?_, ?_, ?_, ?_, rfl, ?_, ?_⟩
    · cases go <;> simp
    · cases go <;> simp
    · intro hgo
      subst hgo
      simp
    · intro hgo
      subst hgo
      simp
    · exact revealViewUpdate_size v0 row col hit sunk scells acells
    · intro r c hr hc
      exact revealViewUpdate_get v0 hwf row col hit sunk scells acells hrow
        hcol hsc hac r c hr hc

end Battleship

namespace Battleship

/-- Witness for C4: a stale reply at (5,5) is ignored while the pending shot
is (0,0), and a valid hit reply at (0,0) marks the view and keeps the carried
turn data. -/
theorem revealResult_accept_and_update_witness :
    handleRevealResult "A" 9 demoAttackerState "B" 5 5 true none false false
        none none "A" false none = Except.ok (demoAttackerState, []) ∧
      ∃ st' room' v',
        handleRevealResult "A" 9 demoAttackerState "B" 0 0 true none true
            false none none "A" false none = Except.ok (st', []) ∧
        st'.room = some room' ∧
        room'.current_attacker = some "A" ∧
        room'.pending_attack = none ∧
        (false = true →
          room'.game_state = GameState.Ended ∧
          room'.status = RoomStatus.Ended ∧
          room'.winner_chain_id = none) ∧
        (false = false →
          room'.game_state = demoAttackerRoom.game_state ∧
          room'.status = demoAttackerRoom.status ∧
          room'.winner_chain_id = demoAttackerRoom.winner_chain_id) ∧
        st'.enemy_view = some v' ∧
        v'.size = (empty_enemy_view 10).size ∧
        (∀ r c, r < (empty_enemy_view 10).size →
          c < (empty_enemy_view 10).size →
          viewGet v' r c =
            if (false : Bool) = true then
              if (r = 0 ∧ c = 0) ∨
                  (∃ cc ∈ (none : Option (List Coord)).getD [],
                    cc.row = r ∧ cc.col = c) then
                EnemyCell.Sunk
              else if (∃ cc ∈ (none : Option (List Coord)).getD [],
                  cc.row = r ∧ cc.col = c) ∧
                  viewGet (empty_enemy_view 10) r c = EnemyCell.Unknown then
                EnemyCell.Miss
              else viewGet (empty_enemy_view 10) r c
            else if (true : Bool) = true then
              if r = 0 ∧ c = 0 then EnemyCell.Hit
              else viewGet (empty_enemy_view 10) r c
            else
              if r = 0 ∧ c = 0 then EnemyCell.Miss
              else viewGet (empty_enemy_view 10) r c) :=
  ⟨revealResult_accept_and_update.1 "A" 9 demoAttackerState demoAttackerRoom
      "B" 5 5 true none false false none none "A" false none rfl
      (Or.inr ⟨{ row := 0, col := 0 }, rfl, Or.inl (by decide)⟩),
   revealResult_accept_and_update.2 "A" 9 demoAttackerState demoAttackerRoom
      (empty_enemy_view 10) "B" 0 0 none true false none none "A" false none
      rfl (Or.inl rfl) rfl rfl rfl (by decide) (by decide)
      (fun cc hcc => absurd hcc (List.not_mem_nil cc))
      (fun cc hcc => absurd hcc (List.not_mem_nil cc))⟩

end Battleship

namespace Battleship

/-- The cell-collection fold succeeds and appends the mapped cells when every
offset lands in bounds. -/
theorem collect_aux_ok (size : Nat) (p : ShipPlacementInput) :
    ∀ (l : List Nat) (acc : List Coord),
    (∀ i ∈ l, ¬(size - 1 < (shipCoord p i).row ∨ size - 1 < (shipCoord p i).col)) →
    l.foldlM
      (fun acc i =>
        let c := shipCoord p i
        if size - 1 < c.row ∨ size - 1 < c.col then
          Except.error "Ship out of bounds"
        else
          Except.ok (acc ++ [c]))
      acc = Except.ok (acc ++ l.map (shipCoord p)) := by
  intro l
  induction l with
  | nil =>
    intro acc _
    rw [List.foldlM_nil, List.map_nil, List.append_nil]
    rfl
  | cons i t ih =>
    intro acc hl
    rw [List.foldlM_cons]
    dsimp only
    rw [if_neg (hl i (List.mem_cons_self i t))]
    show t.foldlM _ (acc ++ [shipCoord p i]) = _
    rw [ih (acc ++ [shipCoord p i]) (fun j hj => hl j (List.mem_cons_of_mem i hj))]
    simp

/-- A successful cell-collection fold implies every offset was in bounds and
returns exactly the mapped cells. -/
theorem collect_aux_inv (size : Nat) (p : ShipPlacementInput) :
    ∀ (l : List Nat) (acc : List Coord) (cs : List Coord),
    l.foldlM
      (fun acc i =>
        let c := shipCoord p i
        if size - 1 < c.row ∨ size - 1 < c.col then
          Except.error "Ship out of bounds"
        else
          Except.ok (acc ++ [c]))
      acc = Except.ok cs →
    (∀ i ∈ l, ¬(size - 1 < (shipCoord p i).row ∨ size - 1 < (shipCoord p i).col)) ∧
      cs = acc ++ l.map (shipCoord p) := by
  intro l
  induction l with
  | nil =>
    intro acc cs h
    rw [List.foldlM_nil] at h
    have h2 : Except.ok acc = Except.ok cs := h
    injection h2 with h3
    subst h3
    exact ⟨fun i hi => absurd hi (List.not_mem_nil i), by simp⟩
  | cons i t ih =>
    intro acc cs h
    rw [List.foldlM_cons] at h
    dsimp only at h
    by_cases hb : size - 1 < (shipCoord p i).row ∨ size - 1 < (shipCoord p i).col
    · rw [if_pos hb] at h
      exact absurd h (by intro hcontra; exact Except.noConfusion hcontra)
    · rw [if_neg hb] at h
      have h' : t.foldlM _ (acc ++ [shipCoord p i]) = Except.ok cs := h
      obtain ⟨hall, hcs⟩ := ih (acc ++ [shipCoord p i]) cs h'
      constructor
      · intro j hj
        rcases List.mem_cons.mp hj with hj | hj
        · subst hj
          exact hb
        · exact hall j hj
      · rw [hcs]
        simp

/-- Function `collectShipCells` succeeds with the placement's computed cells when all
offsets are in bounds. -/
theorem collectShipCells_ok (size : Nat) (p : ShipPlacementInput)
    (h : ∀ i, i < p.length →
      ¬(size - 1 < (shipCoord p i).row ∨ size - 1 < (shipCoord p i).col)) :
    collectShipCells size p = Except.ok (shipCoords p) := by
  unfold collectShipCells shipCoords
  rw [collect_aux_ok size p (List.range p.length) []
    (fun i hi => h i (List.mem_range.mp hi))]
  simp

/-- A successful `collectShipCells` returns the placement's computed cells,
all in bounds. -/
theorem collectShipCells_inv (size : Nat) (p : ShipPlacementInput)
    (cs : List Coord) (h : collectShipCells size p = Except.ok cs) :
    cs = shipCoords p ∧
      ∀ i, i < p.length →
        ¬(size - 1 < (shipCoord p i).row ∨ size - 1 < (shipCoord p i).col) := by
  unfold collectShipCells at h
  obtain ⟨hall, hcs⟩ := collect_aux_inv size p (List.range p.length) [] cs h
  constructor
  · rw [hcs]
    unfold shipCoords
    simp
  · intro i hi
    exact hall i (List.mem_range.mpr hi)

/-- Function `checkShipCell` succeeds exactly when neither the cell itself nor any of
its in-bounds neighbors already holds a ship. -/
theorem checkShipCell_ok_iff (size : Nat) (cells : Nat → Cell) (c : Coord) :
    checkShipCell size cells c = Except.ok () ↔
      (cells (idx size c.row c.col)).ship_id.isSome = false ∧
      ∀ n ∈ neighborCells size c true,
        (cells (idx size n.row n.col)).ship_id.isSome = false := by
  unfold checkShipCell
  by_cases h1 : (cells (idx size c.row c.col)).ship_id.isSome = true
  · rw [if_pos h1]
    constructor
    · intro h
      exact absurd h (by intro hcontra; exact Except.noConfusion hcontra)
    · rintro ⟨h, -⟩
      rw [h1] at h
      exact Bool.noConfusion h
  · have h1f : (cells (idx size c.row c.col)).ship_id.isSome = false :=
      Bool.eq_false_iff.mpr h1
    rw [if_neg h1]
    by_cases h2 : ((neighborCells size c true).any
        (fun n => (cells (idx size n.row n.col)).ship_id.isSome)) = true
    · rw [if_pos h2]
      constructor
      · intro h
        exact absurd h (by intro hcontra; exact Except.noConfusion hcontra)
      · rintro ⟨-, hall⟩
        rw [List.any_eq_true] at h2
        obtain ⟨n, hn, hsome⟩ := h2
        rw [hall n hn] at hsome
        exact Bool.noConfusion hsome
    · rw [if_neg h2]
      constructor
      · intro _
        refine ⟨h1f, ?_⟩
        intro n hn
        by_contra hcontra
        have : (cells (idx size n.row n.col)).ship_id.isSome = true := by
          cases hx : (cells (idx size n.row n.col)).ship_id.isSome
          · exact absurd hx hcontra
          · rfl
        exact h2 (List.any_eq_true.mpr ⟨n, hn, this⟩)
      · intro _
        rfl

/-- The per-ship check loop succeeds exactly when every cell's check
succeeds. -/
theorem checks_fold_ok_iff (size : Nat) (cells : Nat → Cell) :
    ∀ (cs : List Coord),
    (cs.foldlM (fun _ c => checkShipCell size cells c) () = Except.ok () ↔
      ∀ c ∈ cs, checkShipCell size cells c = Except.ok ()) := by
  intro cs
  induction cs with
  | nil =>
    constructor
    · intro _ c hc
      exact absurd hc (List.not_mem_nil c)
    · intro _
      rfl
  | cons c t ih =>
    rw [List.foldlM_cons]
    constructor
    · intro h
      cases hc : checkShipCell size cells c with
      | error e =>
        rw [hc] at h
        exact absurd h (by intro hcontra; exact Except.noConfusion hcontra)
      | ok u =>
        cases u
        rw [hc] at h
        have h' : t.foldlM (fun _ c => checkShipCell size cells c) () =
            Except.ok () := h
        intro c' hc'
        rcases List.mem_cons.mp hc' with h0 | h0
        · subst h0
          exact hc
        · exact ih.mp h' c' h0
    · intro hall
      rw [hall c (List.mem_cons_self c t)]
      show t.foldlM (fun _ c => checkShipCell size cells c) () = Except.ok ()
      exact ih.mpr (fun c' hc' => hall c' (List.mem_cons_of_mem c hc'))

end Battleship

namespace Battleship

/-- Every produced neighbor is in bounds and within Chebyshev distance 1 of
the center. -/
theorem neighborCells_sound (size : Nat) (hsize : 0 < size) (c n : Coord)
    (excl : Bool) (h : n ∈ neighborCells size c excl) :
    (n.row < size ∧ n.col < size) ∧ chebTouch c n := by
  unfold neighborCells at h
  rw [List.mem_flatMap] at h
  obtain ⟨dr, hdr, h⟩ := h
  rw [List.mem_filterMap] at h
  obtain ⟨dc, hdc, heq⟩ := h
  have hdr3 : dr = -1 ∨ dr = 0 ∨ dr = 1 := by simpa using hdr
  have hdc3 : dc = -1 ∨ dc = 0 ∨ dc = 1 := by simpa using hdc
  dsimp only at heq
  split at heq
  · exact absurd heq (by intro hcontra; exact Option.noConfusion hcontra)
  · split at heq
    · exact absurd heq (by intro hcontra; exact Option.noConfusion hcontra)
    · split at heq
      · exact absurd heq (by intro hcontra; exact Option.noConfusion hcontra)
      · rename_i hneg hbound
        injection heq with heq
        subst heq
        rw [not_or] at hneg hbound
        obtain ⟨hr0, hc0⟩ := hneg
        obtain ⟨hrb, hcb⟩ := hbound
        simp only [not_lt] at hr0 hc0 hrb hcb
        unfold chebTouch Nat.dist
        dsimp only
        constructor
        · constructor <;> omega
        · rcases hdr3 with h | h | h <;> rcases hdc3 with h' | h' | h' <;>
            subst h <;> subst h' <;> constructor <;> omega

/-- Every in-bounds cell within Chebyshev distance 1 of the center, other
than the center itself, is produced by the neighbor scan. -/
theorem neighborCells_complete (size : Nat) (hsize : 0 < size) (c n : Coord)
    (hcr : c.row < size) (hcc : c.col < size)
    (hnr : n.row < size) (hnc : n.col < size)
    (htouch : chebTouch c n) (hne : n ≠ c) :
    n ∈ neighborCells size c true := by
  unfold chebTouch Nat.dist at htouch
  obtain ⟨ht1, ht2⟩ := htouch
  unfold neighborCells
  rw [List.mem_flatMap]
  refine ⟨(n.row : Int) - (c.row : Int), ?_, ?_⟩
  · have h3 : (n.row : Int) - (c.row : Int) = -1 ∨
        (n.row : Int) - (c.row : Int) = 0 ∨
        (n.row : Int) - (c.row : Int) = 1 := by omega
    rcases h3 with h | h | h <;> rw [h] <;> simp
  · rw [List.mem_filterMap]
    refine ⟨(n.col : Int) - (c.col : Int), ?_, ?_⟩
    · have h3 : (n.col : Int) - (c.col : Int) = -1 ∨
          (n.col : Int) - (c.col : Int) = 0 ∨
          (n.col : Int) - (c.col : Int) = 1 := by omega
      rcases h3 with h | h | h <;> rw [h] <;> simp
    · have hguard : ¬((true : Bool) ∧ (n.row : Int) - (c.row : Int) = 0 ∧
          (n.col : Int) - (c.col : Int) = 0) := by
        rintro ⟨-, h1, h2⟩
        apply hne
        have : n.row = c.row := by omega
        have : n.col = c.col := by omega
        cases n
        cases c
        simp_all
      rw [if_neg hguard]
      dsimp only
      rw [if_neg (by omega)]
      rw [if_neg (by omega)]
      cases n with
      | mk nr0 nc0 =>
        simp only [Option.some_inj, Coord.mk.injEq]
        constructor <;> omega

end Battleship

namespace Battleship

/-- Pointwise reading of the grid after writing one ship's cells. -/
theorem writeShipCells_get (size : Nat) (sid : Nat) :
    ∀ (cs : List Coord) (cells : Nat → Cell) (i : Nat),
    writeShipCells size cells cs sid i =
      if cs.any (fun c => idx size c.row c.col == i) then
        { cells i with ship_id := some sid }
      else cells i := by
  intro cs
  induction cs with
  | nil =>
    intro cells i
    rw [show ([] : List Coord).any (fun c => idx size c.row c.col == i) = false
      from rfl]
    rfl
  | cons c t ih =>
    intro cells i
    have hstep : writeShipCells size cells (c :: t) sid =
        writeShipCells size
          (fun j => if j = idx size c.row c.col then
            { cells j with ship_id := some sid } else cells j)
          t sid := by
      unfold writeShipCells
      rw [List.foldl_cons]
    rw [hstep, ih]
    rw [List.any_cons]
    by_cases hc : idx size c.row c.col = i
    · subst hc
      rw [show (idx size c.row c.col == idx size c.row c.col) = true by simp]
      rw [Bool.true_or]
      by_cases ht : t.any (fun c0 => idx size c0.row c0.col == idx size c.row c.col) = true
      · rw [ht, if_pos rfl, if_pos rfl]
        rfl
      · rw [Bool.eq_false_iff.mpr ht, if_pos rfl]
        rw [if_pos rfl]
        rfl
    · rw [show (idx size c.row c.col == i) = false from by
        simp only [beq_eq_false_iff_ne, ne_eq]; exact hc]
      rw [Bool.false_or]
      by_cases ht : t.any (fun c0 => idx size c0.row c0.col == i) = true
      · rw [ht, if_pos rfl, if_pos rfl]
        rw [if_neg (by intro h; exact hc h.symm)]
      · rw [Bool.eq_false_iff.mpr ht]
        rw [if_neg (by simp)]
        show (if i = idx size c.row c.col then
          { cells i with ship_id := some sid } else cells i) = cells i
        rw [if_neg (by intro h; exact hc h.symm)]

/-- One saturating increment of the saturating ship-id counter. -/
theorem u8satAdd_next (l : Nat) : u8satAdd (min l 255) 1 = min (l + 1) 255 := by
  unfold u8satAdd
  omega

end Battleship

namespace Battleship

/-- Chebyshev adjacency is symmetric. -/
theorem chebTouch_symm (a b : Coord) (h : chebTouch a b) : chebTouch b a := by
  unfold chebTouch at *
  rw [Nat.dist_comm a.row, Nat.dist_comm a.col] at h
  exact h

/-- Every coordinate touches itself (distance 0). -/
theorem chebTouch_refl (a : Coord) : chebTouch a a := by
  unfold chebTouch
  rw [Nat.dist_self, Nat.dist_self]
  exact ⟨Nat.zero_le 1, Nat.zero_le 1⟩

/-- Reading `getD` of an append, inside the left list. -/
theorem getD_append_lt {α : Type} (l l' : List α) (d : α) (n : Nat)
    (hn : n < l.length) : (l ++ l').getD n d = l.getD n d := by
  rw [List.getD_eq_getElem _ d (by rw [List.length_append]; omega),
    List.getD_eq_getElem _ d hn]
  exact List.getElem_append_left hn

/-- Reading `getD` of an appended singleton at the old length. -/
theorem getD_append_last {α : Type} (l : List α) (s d : α) :
    (l ++ [s]).getD l.length d = s := by
  rw [List.getD_eq_getElem _ d (by rw [List.length_append]; simp)]
  rw [List.getElem_append_right (Nat.le_refl l.length)]
  simp

/-- Reading `getD` at an in-range index gives a member. -/
theorem getD_mem {α : Type} (l : List α) (d : α) (n : Nat)
    (hn : n < l.length) : l.getD n d ∈ l := by
  rw [List.getD_eq_getElem _ d hn]
  exact List.getElem_mem hn

/-- Installing a fully checked ship preserves the placement-loop
invariant. -/
theorem inv_step (size : Nat) (hsize : 0 < size) (cells : Nat → Cell)
    (ships : List Ship) (cs : List Coord)
    (hinv : BoardInv size cells ships)
    (hcsb : ∀ c ∈ cs, c.row < size ∧ c.col < size)
    (hchecks : ∀ c ∈ cs, checkShipCell size cells c = Except.ok ()) :
    BoardInv size (writeShipCells size cells cs (min ships.length 255))
      (ships ++ [{ id := min ships.length 255, cells := cs }]) := by
  obtain ⟨hA, hB, hC, hD⟩ := hinv
  have hcross : ∀ c1 ∈ cs, ∀ s ∈ ships, ∀ c2 ∈ s.cells, ¬chebTouch c1 c2 := by
    intro c1 hc1 s hs c2 hc2 htouch
    obtain ⟨hover, hnb⟩ := (checkShipCell_ok_iff size cells c1).mp
      (hchecks c1 hc1)
    have hc2b := hA s hs c2 hc2
    have hc1b := hcsb c1 hc1
    by_cases heq : c2 = c1
    · subst heq
      have : (cells (idx size c2.row c2.col)).ship_id.isSome = true :=
        (hB c2 hc2b.1 hc2b.2).mpr ⟨s, hs, hc2⟩
      rw [hover] at this
      exact Bool.noConfusion this
    · have hmemnb : c2 ∈ neighborCells size c1 true :=
        neighborCells_complete size hsize c1 c2 hc1b.1 hc1b.2 hc2b.1 hc2b.2
          htouch heq
      have : (cells (idx size c2.row c2.col)).ship_id.isSome = true :=
        (hB c2 hc2b.1 hc2b.2).mpr ⟨s, hs, hc2⟩
      rw [hnb c2 hmemnb] at this
      exact Bool.noConfusion this
  refine ⟨?_, ?_, ?_, ?_⟩
  · intro s hs c hc
    rcases List.mem_append.mp hs with h | h
    · exact hA s h c hc
    · rw [List.mem_singleton] at h
      subst h
      exact hcsb c hc
  · intro c hcr hcc
    rw [writeShipCells_get]
    by_cases hmem : cs.any (fun cc => idx size cc.row cc.col ==
        idx size c.row c.col) = true
    · rw [hmem, if_pos rfl]
      constructor
      · intro _
        rw [List.any_eq_true] at hmem
        obtain ⟨cc, hccmem, hcceq⟩ := hmem
        rw [beq_iff_eq] at hcceq
        have hccb := hcsb cc hccmem
        obtain ⟨h1, h2⟩ := idx_inj size cc.row cc.col c.row c.col hccb.2 hcc hcceq
        have : cc = c := by
          cases cc
          cases c
          simp_all
        subst this
        exact ⟨{ id := min ships.length 255, cells := cs },
          List.mem_append.mpr (Or.inr (List.mem_singleton.mpr rfl)), hccmem⟩
      · intro _
        rfl
    · rw [Bool.eq_false_iff.mpr hmem]
      rw [if_neg (by simp)]
      rw [hB c hcr hcc]
      constructor
      · rintro ⟨s, hs, hc⟩
        exact ⟨s, List.mem_append.mpr (Or.inl hs), hc⟩
      · rintro ⟨s, hs, hc⟩
        rcases List.mem_append.mp hs with h | h
        · exact ⟨s, h, hc⟩
        · rw [List.mem_singleton] at h
          subst h
          exfalso
          apply hmem
          rw [List.any_eq_true]
          exact ⟨c, hc, by rw [beq_iff_eq]⟩
  · intro i j hi hj hne c1 hc1 c2 hc2
    rw [List.length_append, List.length_singleton] at hi hj
    rcases Nat.lt_or_ge i ships.length with hi' | hi' <;>
      rcases Nat.lt_or_ge j ships.length with hj' | hj'
    · rw [getD_append_lt _ _ _ _ hi'] at hc1
      rw [getD_append_lt _ _ _ _ hj'] at hc2
      exact hC i j hi' hj' hne c1 hc1 c2 hc2
    · have hj2 : j = ships.length := by omega
      subst hj2
      rw [getD_append_lt _ _ _ _ hi'] at hc1
      rw [getD_append_last] at hc2
      intro htouch
      exact hcross c2 hc2 (ships.getD i shipD) (getD_mem _ _ _ hi') c1 hc1
        (chebTouch_symm c1 c2 htouch)
    · have hi2 : i = ships.length := by omega
      subst hi2
      rw [getD_append_last] at hc1
      rw [getD_append_lt _ _ _ _ hj'] at hc2
      exact hcross c1 hc1 (ships.getD j shipD) (getD_mem _ _ _ hj') c2 hc2
    · omega
  · intro k hk
    rw [List.length_append, List.length_singleton] at hk
    rcases Nat.lt_or_ge k ships.length with hk' | hk'
    · rw [getD_append_lt _ _ _ _ hk']
      exact hD k hk'
    · have hk2 : k = ships.length := by omega
      subst hk2
      rw [getD_append_last]

end Battleship

namespace Battleship

/-- Soundness of the placement loop: a successful run extends the ship list
by one ship per placement, each with the placement's computed in-bounds
cells, saturating-counter ids, and pairwise non-touching cells. -/
theorem buildLoop_sound (size : Nat) (hsize : 0 < size) :
    ∀ (ps : List ShipPlacementInput) (cells : Nat → Cell) (ships : List Ship)
      (b : Board),
    BoardInv size cells ships →
    buildLoop size ps cells ships (min ships.length 255) = Except.ok b →
    b.size = size ∧
    b.ships.length = ships.length + ps.length ∧
    BoardInv size b.cells b.ships ∧
    (∀ k, k < ships.length → b.ships.getD k shipD = ships.getD k shipD) ∧
    (∀ j, j < ps.length →
      (ps.getD j placementD).length ≠ 0 ∧
      (b.ships.getD (ships.length + j) shipD).cells =
        shipCoords (ps.getD j placementD) ∧
      ∀ c ∈ shipCoords (ps.getD j placementD),
        c.row < size ∧ c.col < size) := by
  intro ps
  induction ps with
  | nil =>
    intro cells ships b hinv h
    rw [show buildLoop size [] cells ships (min ships.length 255) =
      Except.ok { size := size, cells := cells, ships := ships } from rfl] at h
    injection h with h
    subst h
    refine ⟨rfl, by simp, hinv, fun k _ => rfl, ?_⟩
    intro j hj
    exact absurd hj (by simp)
  | cons p rest ih =>
    intro cells ships b hinv h
    rw [show buildLoop size (p :: rest) cells ships (min ships.length 255) =
      (if p.length = 0 then Except.error "Ship length must be > 0"
       else if size - 1 < p.row ∨ size - 1 < p.col then
        Except.error "Ship start out of bounds"
       else
        match collectShipCells size p with
        | Except.error e => Except.error e
        | Except.ok ship_cells =>
          match ship_cells.foldlM
              (fun _ c => checkShipCell size cells c) () with
          | Except.error e => Except.error e
          | Except.ok _ =>
            buildLoop size rest
              (writeShipCells size cells ship_cells (min ships.length 255))
              (ships ++ [{ id := min ships.length 255, cells := ship_cells }])
              (u8satAdd (min ships.length 255) 1)) from rfl] at h
    by_cases hlen : p.length = 0
    · rw [if_pos hlen] at h
      exact absurd h (by intro hcontra; exact Except.noConfusion hcontra)
    · rw [if_neg hlen] at h
      by_cases hstart : size - 1 < p.row ∨ size - 1 < p.col
      · rw [if_pos hstart] at h
        exact absurd h (by intro hcontra; exact Except.noConfusion hcontra)
      · rw [if_neg hstart] at h
        cases hcol : collectShipCells size p with
        | error e =>
          rw [hcol] at h
          exact absurd h (by intro hcontra; exact Except.noConfusion hcontra)
        | ok ship_cells =>
          rw [hcol] at h
          dsimp only at h
          obtain ⟨hcseq, hcsbounds⟩ := collectShipCells_inv size p ship_cells hcol
          have hbounds : ∀ c ∈ shipCoords p, c.row < size ∧ c.col < size := by
            intro c hc
            unfold shipCoords at hc
            rw [List.mem_map] at hc
            obtain ⟨i, hi, hceq⟩ := hc
            rw [List.mem_range] at hi
            have := hcsbounds i hi
            rw [hceq] at this
            omega
          cases hchk : ship_cells.foldlM
              (fun _ c => checkShipCell size cells c) () with
          | error e =>
            rw [hchk] at h
            exact absurd h (by intro hcontra; exact Except.noConfusion hcontra)
          | ok u =>
            cases u
            rw [hchk] at h
            dsimp only at h
            have hchecks : ∀ c ∈ shipCoords p,
                checkShipCell size cells c = Except.ok () := by
              rw [← hcseq]
              exact (checks_fold_ok_iff size cells ship_cells).mp hchk
            subst hcseq
            have hinv2 := inv_step size hsize cells ships (shipCoords p)
              hinv hbounds hchecks
            rw [u8satAdd_next] at h
            generalize hns : Ship.mk (min ships.length 255) (shipCoords p) =
              newShip at h hinv2
            have hlen2 : (ships ++ [newShip]).length = ships.length + 1 := by
              rw [List.length_append, List.length_singleton]
            rw [show min (ships.length + 1) 255 =
              min (ships ++ [newShip]).length 255 from by rw [hlen2]] at h
            obtain ⟨hsz, hslen, hbinv, hpres, hplc⟩ := ih _ _ b hinv2 h
            refine ⟨hsz, ?_, hbinv, ?_, ?_⟩
            · rw [hslen, hlen2, List.length_cons]
              omega
            · intro k hk
              rw [hpres k (by rw [hlen2]; omega)]
              exact getD_append_lt _ _ _ _ hk
            · intro j hj
              cases j with
              | zero =>
                refine ⟨hlen, ?_, ?_⟩
                · rw [show (p :: rest).getD 0 placementD = p from rfl]
                  rw [Nat.add_zero]
                  rw [hpres ships.length (by rw [hlen2]; omega)]
                  rw [getD_append_last]
                  rw [← hns]
                · rw [show (p :: rest).getD 0 placementD = p from rfl]
                  exact hbounds
              | succ j2 =>
                have hj2 : j2 < rest.length := by
                  rw [List.length_cons] at hj
                  omega
                obtain ⟨hl0, hcells0, hb0⟩ := hplc j2 hj2
                refine ⟨?_, ?_, ?_⟩
                · rw [show (p :: rest).getD (j2 + 1) placementD =
                    rest.getD j2 placementD from rfl]
                  exact hl0
                · rw [show (p :: rest).getD (j2 + 1) placementD =
                    rest.getD j2 placementD from rfl]
                  rw [show ships.length + (j2 + 1) =
                    (ships ++ [newShip]).length + j2 from by rw [hlen2]; omega]
                  exact hcells0
                · rw [show (p :: rest).getD (j2 + 1) placementD =
                    rest.getD j2 placementD from rfl]
                  exact hb0

end Battleship

namespace Battleship

/-- Completeness of the placement loop: placements with positive lengths,
in-bounds cells, and pairwise non-touching cells (also against the ships
already installed) are accepted. -/
theorem buildLoop_complete (size : Nat) (hsize : 0 < size) :
    ∀ (ps : List ShipPlacementInput) (cells : Nat → Cell) (ships : List Ship),
    BoardInv size cells ships →
    (∀ p ∈ ps, p.length ≠ 0 ∧ p.row < size ∧ p.col < size ∧
      ∀ c ∈ shipCoords p, c.row < size ∧ c.col < size) →
    (∀ p ∈ ps, ∀ c ∈ shipCoords p, ∀ s ∈ ships, ∀ c2 ∈ s.cells,
      ¬chebTouch c c2) →
    (∀ i j, i < ps.length → j < ps.length → i ≠ j →
      ∀ c1 ∈ shipCoords (ps.getD i placementD),
      ∀ c2 ∈ shipCoords (ps.getD j placementD), ¬chebTouch c1 c2) →
    ∃ b, buildLoop size ps cells ships (min ships.length 255) =
      Except.ok b := by
  intro ps
  induction ps with
  | nil =>
    intro cells ships hinv hgood hcross hpair
    exact ⟨{ size := size, cells := cells, ships := ships }, rfl⟩
  | cons p rest ih =>
    intro cells ships hinv hgood hcross hpair
    obtain ⟨hplen, hprow, hpcol, hpbounds⟩ := hgood p (List.mem_cons_self p rest)
    rw [show buildLoop size (p :: rest) cells ships (min ships.length 255) =
      (if p.length = 0 then Except.error "Ship length must be > 0"
       else if size - 1 < p.row ∨ size - 1 < p.col then
        Except.error "Ship start out of bounds"
       else
        match collectShipCells size p with
        | Except.error e => Except.error e
        | Except.ok ship_cells =>
          match ship_cells.foldlM
              (fun _ c => checkShipCell size cells c) () with
          | Except.error e => Except.error e
          | Except.ok _ =>
            buildLoop size rest
              (writeShipCells size cells ship_cells (min ships.length 255))
              (ships ++ [{ id := min ships.length 255, cells := ship_cells }])
              (u8satAdd (min ships.length 255) 1)) from rfl]
    rw [if_neg hplen]
    rw [if_neg (by omega)]
    have hcolok : collectShipCells size p = Except.ok (shipCoords p) := by
      apply collectShipCells_ok
      intro i hi
      have hmem : shipCoord p i ∈ shipCoords p := by
        unfold shipCoords
        rw [List.mem_map]
        exact ⟨i, List.mem_range.mpr hi, rfl⟩
      have := hpbounds (shipCoord p i) hmem
      omega
    rw [hcolok]
    dsimp only
    have hchkall : ∀ c ∈ shipCoords p,
        checkShipCell size cells c = Except.ok () := by
      intro c hc
      rw [checkShipCell_ok_iff]
      obtain ⟨hA, hB, hC, hD⟩ := hinv
      have hcb := hpbounds c hc
      constructor
      · by_contra hcontra
        have hsome : (cells (idx size c.row c.col)).ship_id.isSome = true := by
          cases hx : (cells (idx size c.row c.col)).ship_id.isSome
          · exact absurd hx hcontra
          · rfl
        obtain ⟨s, hs, hcs⟩ := (hB c hcb.1 hcb.2).mp hsome
        exact hcross p (List.mem_cons_self p rest) c hc s hs c hcs
          (chebTouch_refl c)
      · intro n hn
        obtain ⟨hnb, hntouch⟩ := neighborCells_sound size hsize c n true hn
        by_contra hcontra
        have hsome : (cells (idx size n.row n.col)).ship_id.isSome = true := by
          cases hx : (cells (idx size n.row n.col)).ship_id.isSome
          · exact absurd hx hcontra
          · rfl
        obtain ⟨s, hs, hns⟩ := (hB n hnb.1 hnb.2).mp hsome
        exact hcross p (List.mem_cons_self p rest) c hc s hs n hns hntouch
    rw [(checks_fold_ok_iff size cells (shipCoords p)).mpr hchkall]
    dsimp only
    have hinv2 := inv_step size hsize cells ships (shipCoords p) hinv
      hpbounds hchkall
    generalize hns : Ship.mk (min ships.length 255) (shipCoords p) =
      newShip at hinv2 ⊢
    have hlen2 : (ships ++ [newShip]).length = ships.length + 1 := by
      rw [List.length_append, List.length_singleton]
    rw [u8satAdd_next]
    rw [show min (ships.length + 1) 255 =
      min (ships ++ [newShip]).length 255 from by rw [hlen2]]
    apply ih
    · exact hinv2
    · intro p2 hp2
      exact hgood p2 (List.mem_cons_of_mem p hp2)
    · intro p2 hp2 c hc s hs c2 hc2
      rcases List.mem_append.mp hs with h | h
      · exact hcross p2 (List.mem_cons_of_mem p hp2) c hc s h c2 hc2
      · rw [List.mem_singleton] at h
        subst h
        rw [← hns] at hc2
        dsimp only at hc2
        obtain ⟨i2, hi2, hp2eq⟩ := List.mem_iff_getElem.mp hp2
        have hp2d : rest.getD i2 placementD = p2 := by
          rw [List.getD_eq_getElem _ placementD hi2]
          exact hp2eq
        have hp := hpair (i2 + 1) 0 (by rw [List.length_cons]; omega)
          (by rw [List.length_cons]; omega) (by omega)
        rw [show (p :: rest).getD (i2 + 1) placementD =
          rest.getD i2 placementD from rfl, hp2d] at hp
        rw [show (p :: rest).getD 0 placementD = p from rfl] at hp
        exact hp c hc c2 hc2
    · intro i j hi hj hne c1 hc1 c2 hc2
      have := hpair (i + 1) (j + 1) (by rw [List.length_cons]; omega)
        (by rw [List.length_cons]; omega) (by omega)
      rw [show (p :: rest).getD (i + 1) placementD =
        rest.getD i placementD from rfl] at this
      rw [show (p :: rest).getD (j + 1) placementD =
        rest.getD j placementD from rfl] at this
      exact this c1 hc1 c2 hc2

end Battleship

namespace Battleship

/-- The empty grid with no ships satisfies the loop invariant. -/
theorem BoardInv_init (size : Nat) :
    BoardInv size (fun _ => { ship_id := none, attacked := false }) [] := by
  refine ⟨?_, ?_, ?_, ?_⟩
  · intro s hs
    exact absurd hs (List.not_mem_nil s)
  · intro c _ _
    constructor
    · intro h
      exact Bool.noConfusion h
    · rintro ⟨s, hs, -⟩
      exact absurd hs (List.not_mem_nil s)
  · intro i j hi
    exact absurd hi (by simp)
  · intro k hk
    exact absurd hk (by simp)

/-- C2 (amended): for every positive board size, a successful
`validate_and_build_board` yields one ship per placement in placement order
with id `min k 255` (the saturating counter, which equals the counter
0, 1, 2, ... for at most 256 placements), cells exactly the placement's
computed cells, all in bounds, with distinct ships' cell sets disjoint and
never within Chebyshev distance 1 of each other; and it returns an error if
any placement has zero length, any computed ship cell falls out of bounds,
or two distinct placements' cells meet or touch (overlap or
8-neighborhood). -/
theorem validate_and_build_board_correct (size : Nat) (hsize : 0 < size)
    (placements : List ShipPlacementInput) :
    (∀ b, validate_and_build_board size placements = Except.ok b →
      b.size = size ∧
      b.ships.length = placements.length ∧
      (∀ k, k < placements.length →
        (b.ships.getD k shipD).id = min k 255 ∧
        (b.ships.getD k shipD).cells =
          shipCoords (placements.getD k placementD) ∧
        (placements.getD k placementD).length ≠ 0 ∧
        ∀ c ∈ (b.ships.getD k shipD).cells, c.row < size ∧ c.col < size) ∧
      (∀ i j, i < placements.length → j < placements.length → i ≠ j →
        ∀ c1 ∈ (b.ships.getD i shipD).cells,
        ∀ c2 ∈ (b.ships.getD j shipD).cells,
          c1 ≠ c2 ∧ ¬chebTouch c1 c2)) ∧
    ((∃ p ∈ placements, p.length = 0) →
      ∃ e, validate_and_build_board size placements = Except.error e) ∧
    ((∃ j, j < placements.length ∧
        ∃ c ∈ shipCoords (placements.getD j placementD),
          size ≤ c.row ∨ size ≤ c.col) →
      ∃ e, validate_and_build_board size placements = Except.error e) ∧
    ((∃ i j, i < placements.length ∧ j < placements.length ∧ i ≠ j ∧
        ∃ c1 ∈ shipCoords (placements.getD i placementD),
        ∃ c2 ∈ shipCoords (placements.getD j placementD), chebTouch c1 c2) →
      ∃ e, validate_and_build_board size placements = Except.error e) := by
  have hsound : ∀ b, validate_and_build_board size placements = Except.ok b →
      b.size = size ∧
      b.ships.length = placements.length ∧
      (∀ k, k < placements.length →
        (b.ships.getD k shipD).id = min k 255 ∧
        (b.ships.getD k shipD).cells =
          shipCoords (placements.getD k placementD) ∧
        (placements.getD k placementD).length ≠ 0 ∧
        ∀ c ∈ (b.ships.getD k shipD).cells, c.row < size ∧ c.col < size) ∧
      (∀ i j, i < placements.length → j < placements.length → i ≠ j →
        ∀ c1 ∈ (b.ships.getD i shipD).cells,
        ∀ c2 ∈ (b.ships.getD j shipD).cells,
          c1 ≠ c2 ∧ ¬chebTouch c1 c2) := by
    intro b hok
    unfold validate_and_build_board at hok
    rw [if_neg (by omega)] at hok
    rw [show (0 : Nat) = min ([] : List Ship).length 255 from rfl] at hok
    obtain ⟨hsz, hslen, hbinv, -, hplc⟩ :=
      buildLoop_sound size hsize placements
        (fun _ => { ship_id := none, attacked := false }) [] b
        (BoardInv_init size) hok
    rw [List.length_nil] at hslen
    rw [Nat.zero_add] at hslen
    obtain ⟨hA, hB, hC, hD⟩ := hbinv
    refine ⟨hsz, hslen, ?_, ?_⟩
    · intro k hk
      obtain ⟨hl0, hcells0, hb0⟩ := hplc k (by omega)
      rw [show ([] : List Ship).length + k = k from by simp] at hcells0
      refine ⟨hD k (by omega), hcells0, hl0, ?_⟩
      intro c hc
      rw [hcells0] at hc
      exact hb0 c hc
    · intro i j hi hj hne c1 hc1 c2 hc2
      have hnt := hC i j (by omega) (by omega) hne c1 hc1 c2 hc2
      refine ⟨?_, hnt⟩
      intro heq
      subst heq
      exact hnt (chebTouch_refl c1)
  refine ⟨hsound, ?_, ?_, ?_⟩
  · intro ⟨p, hp, hplen⟩
    cases hres : validate_and_build_board size placements with
    | error e => exact ⟨e, rfl⟩
    | ok b =>
      exfalso
      obtain ⟨-, -, hk, -⟩ := hsound b hres
      obtain ⟨jp, hjp, hpeq⟩ := List.mem_iff_getElem.mp hp
      have hpd : placements.getD jp placementD = p := by
        rw [List.getD_eq_getElem _ placementD hjp]
        exact hpeq
      obtain ⟨-, -, hl0, -⟩ := hk jp hjp
      rw [hpd] at hl0
      exact hl0 hplen
  · intro ⟨j, hj, c, hc, hoob⟩
    cases hres : validate_and_build_board size placements with
    | error e => exact ⟨e, rfl⟩
    | ok b =>
      exfalso
      obtain ⟨-, -, hk, -⟩ := hsound b hres
      obtain ⟨-, hcells0, -, hb0⟩ := hk j hj
      have := hb0 c (by rw [hcells0]; exact hc)
      omega
  · intro ⟨i, j, hi, hj, hne, c1, hc1, c2, hc2, htouch⟩
    cases hres : validate_and_build_board size placements with
    | error e => exact ⟨e, rfl⟩
    | ok b =>
      exfalso
      obtain ⟨-, -, hk, hpw⟩ := hsound b hres
      obtain ⟨-, hcellsi, -, -⟩ := hk i hi
      obtain ⟨-, hcellsj, -, -⟩ := hk j hj
      exact (hpw i j hi hj hne c1 (by rw [hcellsi]; exact hc1)
        c2 (by rw [hcellsj]; exact hc2)).2 htouch

end Battleship

namespace Battleship

/-- Function `validate_and_build_board` accepts every placement list with positive
lengths, in-bounds cells and pairwise non-touching ships. -/
theorem validate_complete (size : Nat) (hsize : 0 < size)
    (ps : List ShipPlacementInput)
    (hgood : ∀ p ∈ ps, p.length ≠ 0 ∧ p.row < size ∧ p.col < size ∧
      ∀ c ∈ shipCoords p, c.row < size ∧ c.col < size)
    (hpair : ∀ i j, i < ps.length → j < ps.length → i ≠ j →
      ∀ c1 ∈ shipCoords (ps.getD i placementD),
      ∀ c2 ∈ shipCoords (ps.getD j placementD), ¬chebTouch c1 c2) :
    ∃ b, validate_and_build_board size ps = Except.ok b := by
  unfold validate_and_build_board
  rw [if_neg (by omega)]
  rw [show (0 : Nat) = min ([] : List Ship).length 255 from rfl]
  exact buildLoop_complete size hsize ps
    (fun _ => { ship_id := none, attacked := false }) []
    (BoardInv_init size) hgood
    (fun p _ c _ s hs => absurd hs (List.not_mem_nil s)) hpair

/-- The j-th saturation placement. -/
theorem satPlacements_getD (j : Nat) (hj : j < 257) :
    saturationPlacements.getD j placementD =
      { row := 2 * (j / 17), col := 2 * (j % 17), length := 1,
        axis := Axis.Horiz } := by
  unfold saturationPlacements
  rw [List.getD_eq_getElem _ placementD (by simp [hj])]
  rw [List.getElem_map]
  rw [List.getElem_range]

/-- Each saturation placement occupies exactly its single start cell. -/
theorem satCoords (j : Nat) (hj : j < 257) :
    shipCoords (saturationPlacements.getD j placementD) =
      [{ row := 2 * (j / 17), col := 2 * (j % 17) }] := by
  rw [satPlacements_getD j hj]
  unfold shipCoords shipCoord
  rw [show List.range 1 = [0] from rfl]
  rw [List.map_singleton]
  dsimp only
  congr 1
  unfold u8satAdd
  congr 1
  omega

/-- The saturation placements are individually valid on the 33-wide
board. -/
theorem satPlacements_good : ∀ p ∈ saturationPlacements,
    p.length ≠ 0 ∧ p.row < 33 ∧ p.col < 33 ∧
    ∀ c ∈ shipCoords p, c.row < 33 ∧ c.col < 33 := by
  intro p hp
  unfold saturationPlacements at hp
  rw [List.mem_map] at hp
  obtain ⟨k, hk, hpe⟩ := hp
  rw [List.mem_range] at hk
  subst hpe
  refine ⟨by simp, by dsimp only; omega, by dsimp only; omega, ?_⟩
  intro c hc
  unfold shipCoords shipCoord at hc
  rw [show List.range (1 : Nat) = [0] from rfl] at hc
  rw [List.map_singleton] at hc
  rw [List.mem_singleton] at hc
  subst hc
  dsimp only
  unfold u8satAdd
  constructor <;> omega

/-- Distinct saturation placements never touch: their cells sit on the even
grid, at least two apart in some axis. -/
theorem satPlacements_pairwise : ∀ i j, i < 257 → j < 257 → i ≠ j →
    ∀ c1 ∈ shipCoords (saturationPlacements.getD i placementD),
    ∀ c2 ∈ shipCoords (saturationPlacements.getD j placementD),
      ¬chebTouch c1 c2 := by
  intro i j hi hj hne c1 hc1 c2 hc2
  rw [satCoords i hi, List.mem_singleton] at hc1
  rw [satCoords j hj, List.mem_singleton] at hc2
  subst hc1
  subst hc2
  unfold chebTouch Nat.dist
  dsimp only
  rintro ⟨h1, h2⟩
  omega

/-- C2 (counterexample to the claim as stated): 257 valid single-cell
placements are accepted, yet the ship at index 256 carries id 255 (the
`u8::saturating_add` counter stops at 255), not the claimed counter value
256. -/
theorem ship_id_saturation_cex :
    ∃ b, validate_and_build_board 33 saturationPlacements = Except.ok b ∧
      (b.ships.getD 256 shipD).id = 255 ∧
      ¬((b.ships.getD 256 shipD).id = 256) := by
  have hlen : saturationPlacements.length = 257 := by
    unfold saturationPlacements
    simp
  obtain ⟨b, hok⟩ := validate_complete 33 (by omega) saturationPlacements
    satPlacements_good
    (fun i j hi hj => satPlacements_pairwise i j (hlen ▸ hi) (hlen ▸ hj))
  have hok2 := hok
  unfold validate_and_build_board at hok2
  rw [if_neg (by omega)] at hok2
  rw [show (0 : Nat) = min ([] : List Ship).length 255 from rfl] at hok2
  obtain ⟨-, hslen, hbinv, -, -⟩ := buildLoop_sound 33 (by omega)
    saturationPlacements (fun _ => { ship_id := none, attacked := false }) []
    b (BoardInv_init 33) hok2
  obtain ⟨-, -, -, hD⟩ := hbinv
  rw [hlen, List.length_nil, Nat.zero_add] at hslen
  have hid := hD 256 (by omega)
  refine ⟨b, hok, ?_, ?_⟩
  · rw [hid]
    omega
  · rw [hid]
    omega

end Battleship

namespace Battleship

/-- Witness for C2 at concrete inputs: the demo placement builds the demo
board (one length-2 ship), a zero-length placement is rejected, an
out-of-bounds placement is rejected, and two touching placements are
rejected. -/
theorem validate_and_build_board_correct_witness :
    (demoBoard.size = 3 ∧ demoBoard.ships.length = 1) ∧
      (∃ e, validate_and_build_board 3 [⟨0, 0, 0, Axis.Horiz⟩] =
        Except.error e) ∧
      (∃ e, validate_and_build_board 3 [⟨2, 2, 2, Axis.Horiz⟩] =
        Except.error e) ∧
      (∃ e, validate_and_build_board 3
        [⟨0, 0, 2, Axis.Horiz⟩, ⟨1, 0, 2, Axis.Horiz⟩] = Except.error e) :=
  ⟨(by
      have h := (validate_and_build_board_correct 3 (by decide)
        [⟨0, 0, 2, Axis.Horiz⟩]).1 demoBoard rfl
      exact ⟨h.1, h.2.1⟩),
   (validate_and_build_board_correct 3 (by decide)
      [⟨0, 0, 0, Axis.Horiz⟩]).2.1 (by decide),
   (validate_and_build_board_correct 3 (by decide)
      [⟨2, 2, 2, Axis.Horiz⟩]).2.2.1
     ⟨0, by decide, { row := 2, col := 3 }, by decide, by decide⟩,
   (validate_and_build_board_correct 3 (by decide)
      [⟨0, 0, 2, Axis.Horiz⟩, ⟨1, 0, 2, Axis.Horiz⟩]).2.2.2
     ⟨0, 1, by decide, by decide, by decide,
      { row := 0, col := 0 }, by decide,
      { row := 1, col := 0 }, by decide,
      by unfold chebTouch Nat.dist; dsimp only; omega⟩⟩

end Battleship
